import Mathlib

/-!
# golidation: the fluent field validator

A shallow embedding of `package/validator/vlaidator.go`.

* Go strings are modelled by `String` (valid UTF-8 text); `len` counts their bytes.
* A value of type `interface{}` is a `Value`: the dynamic types the rule methods
  discriminate on.
* A method that can panic returns an `Outcome`.
* The standard-library parsers whose grammar plays no part in the control flow
  (URL, date, regular expression, IP, JSON, UUID, image, time zone, Unicode classes)
  are fields of `Lib`; the message tables of package `lang`, which are not part
  of the two source files, are fields of `Tables`.
-/

namespace Golidation

/-! ## Dynamic values -/

/-- The integer kinds of Go. `int` is the kind of an untyped integer constant. -/
inductive IntKind
  | int | int8 | int16 | int32 | int64
  | uint | uint8 | uint16 | uint32 | uint64
  deriving DecidableEq, Repr

/-- The floating-point kinds of Go. -/
inductive FloatKind
  | float32 | float64
  deriving DecidableEq, Repr

/-- True for the unsigned integer kinds. -/
def IntKind.isUnsigned : IntKind → Bool
  | .uint | .uint8 | .uint16 | .uint32 | .uint64 => true
  | _ => false

/-- An IEEE-754 value: not-a-number, an infinity, or a finite number given by its
exact rational value. Both signed zeros are `fin 0`: the operations the validator
applies to floats (`==` and `<=`) do not observe the sign of zero. -/
inductive GoFloat
  | nan
  | inf (negative : Bool)
  | fin (q : ℚ)
  deriving DecidableEq

/-- The `==` of Go on floats: NaN differs from everything, itself included. -/
def GoFloat.eq : GoFloat → GoFloat → Bool
  | .nan, _ => false
  | _, .nan => false
  | .inf a, .inf b => a == b
  | .fin p, .fin q => decide (p = q)
  | _, _ => false

/-- The `<=` of Go on floats: false as soon as one side is NaN. -/
def GoFloat.le : GoFloat → GoFloat → Bool
  | .nan, _ => false
  | _, .nan => false
  | .inf true, _ => true
  | _, .inf false => true
  | .inf false, _ => false
  | _, .inf true => false
  | .fin p, .fin q => decide (p ≤ q)

/-- The conversion `float64(n)` of an integer of magnitude below `2^64`: the
nearest number with a 53-bit significand, ties going to the even significand.
The result is again an integer. -/
def roundToFloat64 (n : Int) : Int :=
  let a := n.natAbs
  let bits := if a = 0 then 0 else Nat.log2 a + 1
  if bits ≤ 53 then n
  else
    let shift := bits - 53
    let q := a / 2 ^ shift
    let r := a % 2 ^ shift
    let half := 2 ^ (shift - 1)
    let q1 := if r > half ∨ (r = half ∧ q % 2 = 1) then q + 1 else q
    let m : Int := ((q1 * 2 ^ shift : Nat) : Int)
    if n < 0 then -m else m

/-- The Go conversion `float64(n)` as a float value. -/
def float64OfInt (n : Int) : GoFloat := .fin (roundToFloat64 n)

/-- A dynamically typed value (`interface{}`).

* `nil` is the nil interface.
* `int k n` is an integer of kind `k`; `float k f` a float of kind `k`.
* `slice xs` is a non-nil `[]interface{}`, `nilSlice` the nil slice of that type;
  likewise `map`/`nilMap` for `map[string]interface{}` and `bytes`/`nilBytes`
  for `[]byte`. A map is its list of entries (keys are meant to be distinct;
  a lookup takes the first entry of a key).
* `file mime` is a value of a struct type `struct{ mime string }` that implements
  the interface `File` by returning its field.

Other dynamic types (pointers, channels, functions, `reflect.Value`, user-defined
named types) are outside the model. -/
inductive Value
  | nil
  | str (s : String)
  | bool (b : Bool)
  | int (k : IntKind) (n : Int)
  | float (k : FloatKind) (f : GoFloat)
  | slice (xs : List Value)
  | nilSlice
  | map (entries : List (String × Value))
  | nilMap
  | bytes (bs : List Nat)
  | nilBytes
  | file (mime : String)

/-- The dynamic type of a value; `none` for the nil interface. -/
inductive GoType
  | string | bool
  | int (k : IntKind)
  | float (k : FloatKind)
  | sliceOfInterface | mapOfInterface | sliceOfByte | fileStruct
  deriving DecidableEq, Repr

/-- The dynamic type stored in an interface value. -/
def Value.type : Value → Option GoType
  | .nil => none
  | .str _ => some .string
  | .bool _ => some .bool
  | .int k _ => some (.int k)
  | .float k _ => some (.float k)
  | .slice _ => some .sliceOfInterface
  | .nilSlice => some .sliceOfInterface
  | .map _ => some .mapOfInterface
  | .nilMap => some .mapOfInterface
  | .bytes _ => some .sliceOfByte
  | .nilBytes => some .sliceOfByte
  | .file _ => some .fileStruct

/-- Whether values of the type can be compared with `==` and used as map keys. -/
def GoType.comparable : GoType → Bool
  | .sliceOfInterface | .mapOfInterface | .sliceOfByte => false
  | _ => true

mutual
/-- The function `reflect.DeepEqual` on two interface values that do not share
storage: equal dynamic types, and equal contents, recursively. Values carry no
address, so the shortcut by which `reflect.DeepEqual` returns true for one and the
same slice or map without looking at its elements is outside the model; the two
agree except on a slice or map that is compared with itself and holds a NaN. -/
def deepEqual : Value → Value → Bool
  | .nil, .nil => true
  | .str a, .str b => a == b
  | .bool a, .bool b => a == b
  | .int k a, .int l b => decide (k = l) && decide (a = b)
  | .float k a, .float l b => decide (k = l) && GoFloat.eq a b
  | .slice xs, .slice ys => deepEqualList xs ys
  | .nilSlice, .nilSlice => true
  | .map m, .map n => m.length == n.length && deepEqualMap m n
  | .nilMap, .nilMap => true
  | .bytes a, .bytes b => a == b
  | .nilBytes, .nilBytes => true
  | .file a, .file b => a == b
  | _, _ => false
/-- Element-wise deep equality of two slices of the same length. -/
def deepEqualList : List Value → List Value → Bool
  | [], [] => true
  | x :: xs, y :: ys => deepEqual x y && deepEqualList xs ys
  | _, _ => false
/-- Every entry of the first map has a deeply equal entry in the second. -/
def deepEqualMap : List (String × Value) → List (String × Value) → Bool
  | [], _ => true
  | (k, x) :: rest, n =>
    (match n.lookup k with
      | some y => deepEqual x y
      | none => false) && deepEqualMap rest n
end

/-- The operator `==` on two interface values: `none` is the run-time panic
raised when both hold the same uncomparable dynamic type. -/
def ifaceEq (a b : Value) : Option Bool :=
  match a.type, b.type with
  | none, none => some true
  | some s, some t =>
    if s = t then (if s.comparable then some (deepEqual a b) else none) else some false
  | _, _ => some false

/-- Whether a value can be hashed as a key of a `map[interface{}]bool`; hashing a
slice or a map panics. -/
def hashable (a : Value) : Bool :=
  match a.type with
  | none => true
  | some t => t.comparable

/-- The zero value of the dynamic type of a non-nil value
(`reflect.Zero(val.Type()).Interface()`). -/
def zeroOf : Value → Value
  | .nil => .nil
  | .str _ => .str ""
  | .bool _ => .bool false
  | .int k _ => .int k 0
  | .float k _ => .float k (.fin 0)
  | .slice _ => .nilSlice
  | .nilSlice => .nilSlice
  | .map _ => .nilMap
  | .nilMap => .nilMap
  | .bytes _ => .nilBytes
  | .nilBytes => .nilBytes
  | .file _ => .file ""

/-- The test `reflect.ValueOf(x).IsValid()`: false exactly for the nil interface. -/
def isValid : Value → Bool
  | .nil => false
  | _ => true

/-! ## Strings -/

/-- The predicate `unicode.IsSpace`: the code points with the White_Space property. -/
def isSpace (c : Char) : Bool :=
  let n := c.toNat
  (0x09 ≤ n && n ≤ 0x0d) || n == 0x20 || n == 0x85 || n == 0xA0 || n == 0x1680 ||
  (0x2000 ≤ n && n ≤ 0x200a) || n == 0x2028 || n == 0x2029 || n == 0x202f ||
  n == 0x205f || n == 0x3000

/-- The function `strings.TrimSpace`. -/
def trimSpace (s : String) : String :=
  String.mk ((s.data.dropWhile isSpace).reverse.dropWhile isSpace).reverse

/-- The function `strings.HasPrefix`. -/
def hasPrefix (s pre : String) : Bool := pre.data.isPrefixOf s.data

/-- The function `strings.HasSuffix`. -/
def hasSuffix (s suf : String) : Bool := suf.data.isSuffixOf s.data

/-- Replaces the first occurrence of the non-empty text `old` by `new`. -/
def replaceFirst (old new : List Char) : List Char → List Char
  | [] => []
  | c :: cs =>
    if old.isPrefixOf (c :: cs) then new ++ (c :: cs).drop old.length
    else c :: replaceFirst old new cs

/-- The call `strings.Replace(s, old, new, 1)`: an empty `old` matches at the start. -/
def stringsReplace1 (s old new : String) : String :=
  if old.data = [] then String.mk (new.data ++ s.data)
  else String.mk (replaceFirst old.data new.data s.data)

/-- The text of `fmt.Sprintf("%d", n)`. -/
def sprintfD (n : Int) : String :=
  String.mk ((if n < 0 then ['-'] else []) ++ Nat.toDigits 10 n.natAbs)

/-! ## `fmt` with a format and no operands

`Error` and `Errors` pass a composed message to `fmt.Errorf` as the format
string, with no operand. What follows is `(*pp).doPrintf` of package `fmt`
specialised to an empty operand list. -/

/-- The digit loop of `parsenum`; `none` when the number read so far exceeds `10^6`
and another digit follows. -/
def parsenumAux : Nat → Bool → List Char → Option (Bool × List Char)
  | _, isnum, [] => some (isnum, [])
  | num, isnum, c :: cs =>
    if '0' ≤ c ∧ c ≤ '9' then
      if num > 1000000 then none
      else parsenumAux (num * 10 + (c.toNat - 48)) true cs
    else some (isnum, c :: cs)

/-- The function `parsenum(format, i, end)` with `end` the end of the format:
whether a number was read, and the rest of the format. On overflow the rest of the
format is skipped. -/
def parsenum (rem : List Char) : Bool × List Char :=
  match parsenumAux 0 false rem with
  | some r => r
  | none => (false, [])

/-- Splits at the first closing bracket: the text before it and the text after it. -/
def splitAtBracket : List Char → Option (List Char × List Char)
  | [] => none
  | c :: cs =>
    if c = ']' then some ([], cs)
    else match splitAtBracket cs with
      | some (inner, after) => some (c :: inner, after)
      | none => none

/-- The function `parseArgNumber` on a format that starts with an opening bracket,
given the text `rest` after that bracket: whether a well-formed index `[n]` was
read, and the rest of the format. -/
def parseArgNumber (rest : List Char) : Bool × List Char :=
  if 1 + (rest.map Char.utf8Size).sum < 3 then (false, rest)
  else match splitAtBracket rest with
    | none => (false, rest)
    | some (inner, after) =>
      match parsenumAux 0 false inner with
      | some (true, []) => (true, after)
      | _ => (false, after)

/-- The method `argNumber` with no operand: on an opening bracket the index is
always out of range, so `goodArgNum` becomes false. Returns `goodArgNum`,
`afterIndex` and the rest of the format. -/
def argNumber (good : Bool) : List Char → Bool × Bool × List Char
  | '[' :: rest =>
    let r := parseArgNumber rest
    (false, r.1, r.2)
  | rem => (good, false, rem)

/-- The flag characters skipped after a percent sign. -/
def isFlag (c : Char) : Bool :=
  c == '#' || c == '0' || c == '+' || c == '-' || c == ' '

/-- The width part of a directive: output written, `goodArgNum`, `afterIndex`, rest. -/
def widthPart (good afterIndex : Bool) : List Char → List Char × Bool × Bool × List Char
  | '*' :: rest => ("%!(BADWIDTH)".data, good, false, rest)
  | rem =>
    let r := parsenum rem
    ([], (if afterIndex && r.1 then false else good), afterIndex, r.2)

/-- The precision part of a directive: output written, `goodArgNum`, `afterIndex`, rest.
The test is `i+1 < end && format[i] == '.'`: a dot opens a precision only when a
character follows it; a dot that ends the format is left to be read as the verb. -/
def precisionPart (good afterIndex : Bool) : List Char → List Char × Bool × Bool × List Char
  | '.' :: c :: rest =>
    let good1 := if afterIndex then false else good
    let a := argNumber good1 (c :: rest)
    match a.2.2 with
    | '*' :: rest2 => ("%!(BADPREC)".data, a.1, false, rest2)
    | rem2 => ([], a.1, a.2.1, (parsenum rem2).2)
  | rem => ([], good, afterIndex, rem)

/-- One directive, given the format after its percent sign: the output written and
the rest of the format, `none` when the format ended inside the directive. -/
def directive (rem : List Char) : List Char × Option (List Char) :=
  let a := argNumber true (rem.dropWhile isFlag)
  let w := widthPart a.1 a.2.1 a.2.2
  let p := precisionPart w.2.1 w.2.2.1 w.2.2.2
  let b := if p.2.2.1 then (p.2.1, p.2.2.1, p.2.2.2) else argNumber p.2.1 p.2.2.2
  match b.2.2 with
  | [] => (w.1 ++ p.1 ++ "%!(NOVERB)".data, none)
  | verb :: rest =>
    let out :=
      if verb = '%' then ['%']
      else if !b.1 then "%!".data ++ [verb] ++ "(BADINDEX)".data
      else "%!".data ++ [verb] ++ "(MISSING)".data
    (w.1 ++ p.1 ++ out, some rest)

/-- The loop of `doPrintf`; every round consumes at least one character, so a fuel
above the length of the format is never exhausted. -/
def doPrintf : Nat → List Char → List Char
  | 0, _ => []
  | _ + 1, [] => []
  | fuel + 1, c :: cs =>
    if c ≠ '%' then c :: doPrintf fuel cs
    else match directive cs with
      | (out, none) => out
      | (out, some rest) => out ++ doPrintf fuel rest

/-- The text of `fmt.Sprintf(format)`, also the text of the error `fmt.Errorf(format)`. -/
def Sprintf (format : String) : String :=
  String.mk (doPrintf (format.length + 1) format.data)


/-- The built-in `len` on a string: its length in bytes. -/
def len (s : String) : Nat := (s.data.map Char.utf8Size).sum

/-! ## Collaborators outside the two source files -/

/-- A point in time (`time.Time`), as its instant on the time line. -/
abbrev Time := Int

/-- The standard-library and third-party functions the rules call and whose
internals the validator does not depend on. Each field is the part of the result
the caller inspects. -/
structure Lib where
  /-- The function `strings.ToLower`. -/
  toLower : String → String
  /-- The function `strings.EqualFold`. -/
  equalFold : String → String → Bool
  /-- The predicate `unicode.IsLetter`. -/
  isLetter : Char → Bool
  /-- The predicate `unicode.IsUpper`. -/
  isUpper : Char → Bool
  /-- The predicate `unicode.IsLower`. -/
  isLower : Char → Bool
  /-- The predicate `unicode.IsDigit`. -/
  isDigit : Char → Bool
  /-- The predicate `unicode.IsPunct`. -/
  isPunct : Char → Bool
  /-- The predicate `unicode.IsSymbol`. -/
  isSymbol : Char → Bool
  /-- Whether `strconv.Atoi` returns no error. -/
  atoi : String → Bool
  /-- Whether `strconv.ParseFloat(s, 64)` returns no error. -/
  parseFloat : String → Bool
  /-- Whether `url.ParseRequestURI` returns no error. -/
  parseRequestURI : String → Bool
  /-- The call `time.Parse(layout, value)`: the parsed time, `none` on error. -/
  timeParse : String → String → Option Time
  /-- The call `regexp.MatchString(pattern, s)`: `none` on error. -/
  regexpMatchString : String → String → Option Bool
  /-- The method `MatchString` of the compiled e-mail pattern of `Email`. -/
  emailMatch : String → Bool
  /-- The call `net.ParseIP`: `none` for nil, else whether `To4()` is not nil. -/
  parseIP : String → Option Bool
  /-- Whether `json.Unmarshal` into a `json.RawMessage` returns no error. -/
  jsonValid : String → Bool
  /-- Whether `uuid.Parse` returns no error. -/
  uuidParse : String → Bool
  /-- Whether `time.LoadLocation` returns no error. -/
  loadLocation : String → Bool
  /-- Whether `image.DecodeConfig` returns no error. -/
  decodeConfig : List Nat → Bool
  /-- The call `image.Decode`: width and height of the bounds, `none` on error. -/
  decode : List Nat → Option (Int × Int)

/-- A Go `map[string]string`, as its list of entries; the nil map is the empty list. -/
abbrev StringMap := List (String × String)

/-- The package-level tables of package `lang` that `EnMsg`, `FaMsg` and `Lang` bind.
Their declarations are not part of the source files at hand. -/
structure Tables where
  EnValidationMsg : StringMap
  FaValidationMsg : StringMap
  FaAttributes : StringMap

/-- The constant `Fa`. -/
def Fa : String := "fa"

/-- The constant `En`. -/
def En : String := "en"

/-! ## The session -/

/-- The struct `Validator`. -/
structure Validator where
  /-- The field `attribute` of the source (a reserved word here). -/
  attributeName : String
  value : Value
  optional : Bool
  langMessages : StringMap
  attributeTrans : StringMap
  messages : List String

/-- How a call ends: it returns with the session in a new state, or it panics. -/
inductive Outcome
  | ok (v : Validator)
  | panic (msg : String)

/-- Runs the next call of a chain on the session a call returned. -/
def Outcome.andThen (o : Outcome) (f : Validator → Outcome) : Outcome :=
  match o with
  | .ok v => f v
  | .panic msg => .panic msg

/-- Whether the call returned. -/
def Outcome.returned : Outcome → Bool
  | .ok _ => true
  | .panic _ => false

/-- The function `Attribute`. -/
def Attribute (attributeName : String) : Validator :=
  { attributeName := attributeName, value := .nil, optional := false,
    langMessages := [], attributeTrans := [], messages := [] }

/-- The method `Is`. -/
def Validator.Is (v : Validator) (val : Value) : Validator :=
  { v with value := val }

/-- The method `EnMsg`. -/
def Validator.EnMsg (t : Tables) (v : Validator) : Validator :=
  { v with langMessages := t.EnValidationMsg }

/-- The method `FaMsg`. -/
def Validator.FaMsg (t : Tables) (v : Validator) : Validator :=
  { v with langMessages := t.FaValidationMsg, attributeTrans := t.FaAttributes }

/-- The method `Lang`. -/
def Validator.Lang (t : Tables) (v : Validator) (lan : Value) : Validator :=
  if ifaceEq lan (.str Fa) = some true then
    { v with langMessages := t.FaValidationMsg, attributeTrans := t.FaAttributes }
  else
    { v with langMessages := t.EnValidationMsg }

/-- The method `Optional`. -/
def Validator.Optional (v : Validator) : Validator :=
  { v with optional := true }

/-- The text `messageMaker` panics with. -/
def noLanguagePanic : String :=
  "please set valid language messages and call Lang(land string) or EnMsg() or FaMsg() before call validation methods."

/-- The method `messageMaker`. -/
def Validator.messageMaker (v : Validator) (rule : String) : Outcome :=
  if v.langMessages.length = 0 then .panic noLanguagePanic
  else
    let v1 : Validator :=
      match v.attributeTrans.lookup v.attributeName with
      | some attributeTrans => { v with attributeName := attributeTrans }
      | none => v
    match v1.langMessages.lookup rule with
    | some val =>
      .ok { v1 with messages := v1.messages ++ [stringsReplace1 val ":attr" v1.attributeName] }
    | none => .ok v1

/-- The method `Error`: the text of the returned error, `none` for a nil error,
and the session after the call. -/
def Validator.Error (v : Validator) : Option String × Validator :=
  match v.messages with
  | fErrMsg :: _ => (some (Sprintf fErrMsg), v)
  | [] => (none, v)

/-- The method `Errors`: the texts of the returned errors, and the session after
the call. -/
def Validator.Errors (v : Validator) : List String × Validator :=
  (v.messages.foldl (fun errors message => errors ++ [Sprintf message]) [], v)

/-! ## The predicates of the rules

For every rule method, `Status.R` is the value of the local variable `status`
when the method reaches its final test `if !status`; it is `none` when the method
panics before that point. -/

/-- The layout `time.Parse` is given by the date rules. -/
def dateLayout : String := "2006-01-02"

/-- The test `val == "yes" || val == "on" || val == "1" || val == "true"` on the
lower-cased, trimmed text. -/
def acceptedText (lib : Lib) (val : String) : Bool :=
  let val := trimSpace (lib.toLower val)
  val == "yes" || val == "on" || val == "1" || val == "true"

/-- The test `val == "no" || val == "declined" || val == "0" || val == "false"` on
the lower-cased, trimmed text. -/
def declinedText (lib : Lib) (str : String) : Bool :=
  let val := trimSpace (lib.toLower str)
  val == "no" || val == "declined" || val == "0" || val == "false"

/-- The test `val.IsValid() && !reflect.DeepEqual(val.Interface(), reflect.Zero(val.Type()).Interface())`. -/
def notZero (x : Value) : Bool :=
  isValid x && !deepEqual x (zeroOf x)

/-- The test `!val.IsValid() || reflect.DeepEqual(val.Interface(), reflect.Zero(val.Type()).Interface())`. -/
def isZero (x : Value) : Bool :=
  !isValid x || deepEqual x (zeroOf x)

/-- The call `reflect.DeepEqual(x, otherVal)` in which `otherVal` is the
`reflect.Value` wrapper built from another value: the second operand is a non-nil
interface of dynamic type `reflect.Value`. For a nil `x` the result is `x == y`;
otherwise the dynamic types differ, as no modelled value is a `reflect.Value`. -/
def deepEqualReflected (x _otherValue : Value) : Bool :=
  match x.type with
  | none => false
  | some _ => false

/-- The loop of the character-class rules: `status` is set to false and the loop
left at the first character outside the class. -/
def classLoop (inClass : Char → Bool) (status : Bool) : List Char → Bool
  | [] => status
  | ch :: rest => if !inClass ch then false else classLoop inClass status rest

/-- The class of `Alpha`. -/
def isAlphaChar (ch : Char) : Bool :=
  ('A' ≤ ch && ch ≤ 'Z') || ('a' ≤ ch && ch ≤ 'z')

/-- The class of `AlphaDash`. -/
def isAlphaDashChar (ch : Char) : Bool :=
  ('A' ≤ ch && ch ≤ 'Z') || ('a' ≤ ch && ch ≤ 'z') || ('0' ≤ ch && ch ≤ '9') || ch == '-'

/-- The class of `AlphaNum`. -/
def isAlphaNumChar (ch : Char) : Bool :=
  ('A' ≤ ch && ch ≤ 'Z') || ('a' ≤ ch && ch ≤ 'z') || ('0' ≤ ch && ch ≤ '9')

/-- The counter `digitCount` of `Digits` on a string. -/
def digitCount (str : String) : Nat :=
  str.data.foldl (fun n ch => if ch ≥ '0' && ch ≤ '9' then n + 1 else n) 0

/-- The loop of `Distinct` over a `map[interface{}]bool` whose keys are `seen`:
`none` when an item cannot be hashed, else the `status` the loop leaves. -/
def distinctLoop (status : Bool) (seen : List Value) : List Value → Option Bool
  | [] => some status
  | item :: rest =>
    if !hashable item then none
    else if seen.any (fun k => ifaceEq k item == some true) then some false
    else distinctLoop status (item :: seen) rest

/-- The loop of `Exists`: `none` when a comparison panics. -/
def existsLoop (x : Value) (status : Bool) : List Value → Option Bool
  | [] => some status
  | validValue :: rest =>
    match ifaceEq x validValue with
    | none => none
    | some true => some true
    | some false => existsLoop x status rest

/-- The loop of `NotIn` and `Unique`: false and out at a deeply equal element,
true after each other element. -/
def notInLoop (x : Value) (status : Bool) : List Value → Bool
  | [] => status
  | invalidValue :: rest =>
    if deepEqual x invalidValue then false else notInLoop x true rest

/-- The loop of `PasswordMixed`. -/
def mixedLoop (lib : Lib) (hasUpper hasLower status : Bool) : List Char → Bool
  | [] => status
  | char :: rest =>
    let hasUpper := if lib.isUpper char then true else hasUpper
    let hasLower := if lib.isLower char then true else hasLower
    if hasUpper && hasLower then true else mixedLoop lib hasUpper hasLower status rest

/-- The loop of `PasswordUncompromised`: false and out at a leaked value. -/
def leakedLoop (str : String) (status : Bool) : List String → Bool
  | [] => status
  | leaked :: rest => if str == leaked then false else leakedLoop str status rest

/-- A loop that sets `status` to true and stops at the first element passing `p`. -/
def anyLoop {α : Type} (p : α → Bool) (status : Bool) : List α → Bool
  | [] => status
  | x :: rest => if p x then true else anyLoop p status rest

namespace Status

/-- Predicate of `Accepted`. -/
def Accepted (lib : Lib) (v : Validator) : Bool :=
  match v.value with
  | .str val => acceptedText lib val
  | .bool val => val
  | .int .int val => val == 1
  | _ => false

/-- Predicate of `AcceptedIf`. -/
def AcceptedIf (lib : Lib) (other : String) (otherValue : Value) (v : Validator) : Bool :=
  let otherMatches :=
    match otherValue with
    | .str val => trimSpace (lib.toLower other) == trimSpace (lib.toLower val)
    | .bool val => other == "true" && val == true
    | .int .int val => other == "1" && val == 1
    | _ => false
  if otherMatches then
    match v.value with
    | .str val => acceptedText lib val
    | .bool val => val
    | .int .int val => val == 1
    | _ => false
  else true

/-- Predicate of `ActiveURL`. -/
def ActiveURL (lib : Lib) (v : Validator) : Bool :=
  match v.value with
  | .str str => lib.parseRequestURI str
  | _ => false

/-- Predicate of `After`. -/
def After (lib : Lib) (compareDate : Time) (v : Validator) : Bool :=
  match v.value with
  | .str dateStr =>
    match lib.timeParse dateLayout dateStr with
    | some date => decide (date > compareDate)
    | none => false
  | _ => false

/-- Predicate of `AfterOrEqual`. -/
def AfterOrEqual (lib : Lib) (compareDate : Time) (v : Validator) : Bool :=
  match v.value with
  | .str dateStr =>
    match lib.timeParse dateLayout dateStr with
    | some date => decide (date = compareDate) || decide (date > compareDate)
    | none => false
  | _ => false

/-- Predicate of `Alpha`: the status the loop leaves is overwritten after it. -/
def Alpha (v : Validator) : Bool :=
  match v.value with
  | .str str =>
    let _ := classLoop isAlphaChar false str.data
    true
  | _ => false

/-- Predicate of `AlphaDash`: the status the loop leaves is overwritten after it. -/
def AlphaDash (v : Validator) : Bool :=
  match v.value with
  | .str str =>
    let _ := classLoop isAlphaDashChar false str.data
    true
  | _ => false

/-- Predicate of `AlphaNum`: the status the loop leaves is overwritten after it. -/
def AlphaNum (v : Validator) : Bool :=
  match v.value with
  | .str str =>
    let _ := classLoop isAlphaNumChar false str.data
    true
  | _ => false

/-- Predicate of `Array`. -/
def Array (v : Validator) : Bool :=
  match v.value with
  | .slice _ => true
  | .nilSlice => true
  | _ => false

/-- Predicate of `Before`. -/
def Before (lib : Lib) (compareDate : Time) (v : Validator) : Bool :=
  match v.value with
  | .str dateStr =>
    match lib.timeParse dateLayout dateStr with
    | some date => decide (date < compareDate)
    | none => false
  | _ => false

/-- Predicate of `BeforeOrEqual`. -/
def BeforeOrEqual (lib : Lib) (compareDate : Time) (v : Validator) : Bool :=
  match v.value with
  | .str dateStr =>
    match lib.timeParse dateLayout dateStr with
    | some date => decide (date < compareDate) || decide (date = compareDate)
    | none => false
  | _ => false

/-- Predicate of `Boolean`. -/
def Boolean (v : Validator) : Bool :=
  match v.value with
  | .bool _ => true
  | _ => false

/-- Predicate of `Confirmed`. -/
def Confirmed (confirmValue : Value) (v : Validator) : Bool :=
  match confirmValue with
  | .str confirmStr =>
    match v.value with
    | .str originalStr => originalStr == confirmStr
    | _ => false
  | _ => false

/-- Predicate of `Date`. -/
def Date (lib : Lib) (v : Validator) : Bool :=
  match v.value with
  | .str dateStr => (lib.timeParse dateLayout dateStr).isSome
  | _ => false

/-- Predicate of `DateEquals`. -/
def DateEquals (lib : Lib) (compareDate : Time) (v : Validator) : Bool :=
  match v.value with
  | .str dateStr =>
    match lib.timeParse dateLayout dateStr with
    | some date => decide (date = compareDate)
    | none => false
  | _ => false

/-- Predicate of `DateFormat`. -/
def DateFormat (lib : Lib) (format : String) (v : Validator) : Bool :=
  match v.value with
  | .str dateStr => (lib.timeParse format dateStr).isSome
  | _ => false

/-- Predicate of `Declined`. -/
def Declined (lib : Lib) (v : Validator) : Bool :=
  match v.value with
  | .str str => declinedText lib str
  | .bool boolVal => !boolVal
  | _ => false

/-- Predicate of `DeclinedIf`: `none` when one of the unchecked type assertions
`value.(string)`, `value.(bool)`, `value.(int)` panics. -/
def DeclinedIf (lib : Lib) (otherValue value : Value) (v : Validator) : Option Bool :=
  let otherMatches : Option Bool :=
    match otherValue with
    | .str val =>
      match value with
      | .str w => some (trimSpace (lib.toLower val) == trimSpace (lib.toLower w))
      | _ => none
    | .bool val =>
      match value with
      | .bool w => some (val == w)
      | _ => none
    | .int .int val =>
      match value with
      | .int .int w => some (val == w)
      | _ => none
    | _ => some false
  match otherMatches with
  | none => none
  | some true =>
    match v.value with
    | .str str => some (declinedText lib str)
    | .bool boolVal => some (!boolVal)
    | _ => some false
  | some false => some true

/-- Predicate of `Different`. -/
def Different (otherValue : Value) (v : Validator) : Bool :=
  match v.value with
  | .str val =>
    match otherValue with
    | .str otherStr => val != otherStr
    | _ => false
  | .bool val =>
    match otherValue with
    | .bool otherBool => val != otherBool
    | _ => false
  | .int .int val =>
    match otherValue with
    | .int .int otherInt => val != otherInt
    | _ => false
  | _ => false

/-- Predicate of `Digits`. -/
def Digits (digits : Int) (v : Validator) : Bool :=
  match v.value with
  | .str str => decide ((digitCount str : Int) = digits)
  | .int .int num => decide ((len (sprintfD num) : Int) = digits)
  | _ => false

/-- Predicate of `DigitsBetween`. -/
def DigitsBetween (min max : Int) (v : Validator) : Bool :=
  match v.value with
  | .str str =>
    decide ((digitCount str : Int) ≥ min) && decide ((digitCount str : Int) ≤ max)
  | .int .int num =>
    decide ((len (sprintfD num) : Int) ≥ min) && decide ((len (sprintfD num) : Int) ≤ max)
  | _ => false

/-- The body of `Dimensions` on the bytes of an image. -/
def dimensionsOf (lib : Lib) (minWidth minHeight maxWidth maxHeight : Int)
    (imgData : List Nat) : Bool :=
  if !lib.decodeConfig imgData then false
  else
    match lib.decode imgData with
    | some (width, height) =>
      decide (width ≥ minWidth) && decide (width ≤ maxWidth) &&
        decide (height ≥ minHeight) && decide (height ≤ maxHeight)
    | none => false

/-- Predicate of `Dimensions`. -/
def Dimensions (lib : Lib) (minWidth minHeight maxWidth maxHeight : Int) (v : Validator) :
    Bool :=
  match v.value with
  | .bytes imgData => dimensionsOf lib minWidth minHeight maxWidth maxHeight imgData
  | .nilBytes => dimensionsOf lib minWidth minHeight maxWidth maxHeight []
  | _ => false

/-- Predicate of `Distinct`: `none` when an item cannot be hashed; the status the
loop leaves is overwritten after it. -/
def Distinct (v : Validator) : Option Bool :=
  match v.value with
  | .slice slice =>
    match distinctLoop false [] slice with
    | none => none
    | some _ => some true
  | .nilSlice => some true
  | _ => some false

/-- Predicate of `Email`. -/
def Email (lib : Lib) (v : Validator) : Bool :=
  match v.value with
  | .str email => lib.emailMatch email
  | _ => false

/-- Predicate of `EndsWith`. -/
def EndsWith (values : List String) (v : Validator) : Bool :=
  match v.value with
  | .str str => anyLoop (fun suffix => hasSuffix str suffix) false values
  | _ => false

/-- Predicate of `Exists`: `none` when a comparison `v.value == validValue` panics. -/
def Exists (validValues : List Value) (v : Validator) : Option Bool :=
  existsLoop v.value false validValues

/-- Predicate of `ExistsInString`. -/
def ExistsInString (validValues : List String) (v : Validator) : Bool :=
  anyLoop (fun validValue => ifaceEq v.value (.str validValue) == some true) false validValues

/-- Predicate of `Filled`. -/
def Filled (v : Validator) : Bool :=
  match v.value with
  | .str s => trimSpace s != ""
  | .slice xs => decide (xs.length > 0)
  | .nilSlice => false
  | .map m => decide (m.length > 0)
  | .nilMap => false
  | x => isValid x

/-- Predicate of `Image`. -/
def Image (lib : Lib) (v : Validator) : Bool :=
  match v.value with
  | .bytes imgData => lib.decodeConfig imgData
  | .nilBytes => lib.decodeConfig []
  | _ => false

/-- Predicate of `In`. -/
def In (validValues : List Value) (v : Validator) : Bool :=
  anyLoop (fun validValue => deepEqual v.value validValue) false validValues

/-- Predicate of `Integer`. -/
def Integer (lib : Lib) (v : Validator) : Bool :=
  match v.value with
  | .int .int _ => true
  | .str s => lib.atoi s
  | _ => false

/-- Predicate of `InArray`. -/
def InArray (arr : List Value) (v : Validator) : Bool :=
  anyLoop (fun item => deepEqual v.value item) false arr

/-- Predicate of `IP`. -/
def IP (lib : Lib) (v : Validator) : Bool :=
  match v.value with
  | .str ipStr => (lib.parseIP ipStr).isSome
  | _ => false

/-- Predicate of `IPv4`. -/
def IPv4 (lib : Lib) (v : Validator) : Bool :=
  match v.value with
  | .str ipStr =>
    match lib.parseIP ipStr with
    | some to4 => to4
    | none => false
  | _ => false

/-- Predicate of `IPv6`. -/
def IPv6 (lib : Lib) (v : Validator) : Bool :=
  match v.value with
  | .str ipStr =>
    match lib.parseIP ipStr with
    | some to4 => !to4
    | none => false
  | _ => false

/-- Predicate of `JSON`. -/
def JSON (lib : Lib) (v : Validator) : Bool :=
  match v.value with
  | .str jsonString => lib.jsonValid jsonString
  | _ => false

/-- Predicate of `Mimes`. -/
def Mimes (lib : Lib) (validTypes : List String) (v : Validator) : Bool :=
  match v.value with
  | .file fileType => anyLoop (fun validType => lib.equalFold fileType validType) false validTypes
  | _ => false

/-- Predicate of `NotIn`. -/
def NotIn (invalidValues : List Value) (v : Validator) : Bool :=
  notInLoop v.value false invalidValues

/-- Predicate of `NotRegex`. -/
def NotRegex (lib : Lib) (pattern : String) (v : Validator) : Bool :=
  match v.value with
  | .str str =>
    match lib.regexpMatchString pattern str with
    | some matched => !matched
    | none => false
  | _ => false

/-- The branch of `Numeric` for the numeric dynamic types: `v.value == 0` compares
with the constant `0` of type `int`. -/
def numericZeroTest (v : Validator) : Bool :=
  if ifaceEq v.value (.int .int 0) == some true && !v.optional then false else true

/-- Predicate of `Numeric`. -/
def Numeric (lib : Lib) (v : Validator) : Bool :=
  match v.value with
  | .int .int _ => numericZeroTest v
  | .float .float32 _ => numericZeroTest v
  | .float .float64 _ => numericZeroTest v
  | .int .int32 _ => numericZeroTest v
  | .int .int64 _ => numericZeroTest v
  | .str s => lib.parseFloat s
  | _ => false

/-- Predicate of `Present`. -/
def Present (v : Validator) : Bool :=
  notZero v.value

/-- Predicate of `Prohibited`. -/
def Prohibited (v : Validator) : Bool :=
  isZero v.value

/-- Predicate of `ProhibitedIf`. -/
def ProhibitedIf (otherValue : Value) (v : Validator) : Bool :=
  if deepEqualReflected v.value otherValue then isZero v.value else true

/-- Predicate of `Regex`. -/
def Regex (lib : Lib) (pattern : String) (v : Validator) : Bool :=
  match v.value with
  | .str str =>
    match lib.regexpMatchString pattern str with
    | some matched => matched
    | none => false
  | _ => false

/-- Predicate of `Required`. -/
def Required (v : Validator) : Bool :=
  notZero v.value

/-- Predicate of `RequiredIf`. -/
def RequiredIf (otherValue : Value) (v : Validator) : Bool :=
  if deepEqualReflected v.value otherValue then notZero v.value else true

/-- The loop of `RequiredUnless`: `otherVal.Interface()` panics in the first round
when `otherValue` is nil. -/
def requiredUnlessLoop (otherValue : Value) (valid : Bool) : List Value → Option Bool
  | [] => some valid
  | validValue :: rest =>
    if !isValid otherValue then none
    else if deepEqual otherValue validValue then some true
    else requiredUnlessLoop otherValue valid rest

/-- Predicate of `RequiredUnless`: `none` when the loop panics. -/
def RequiredUnless (otherValue : Value) (validValues : List Value) (v : Validator) :
    Option Bool :=
  match requiredUnlessLoop otherValue false validValues with
  | none => none
  | some valid => if !valid then some (notZero v.value) else some true

/-- Predicate of `Same`. -/
def Same (otherValue : Value) (v : Validator) : Bool :=
  if deepEqual v.value otherValue then true else false

/-- Predicate of `StartsWith`. -/
def StartsWith (values : List String) (v : Validator) : Bool :=
  match v.value with
  | .str str => anyLoop (fun pre => hasPrefix str pre) false values
  | _ => false

/-- Predicate of `Timezone`. -/
def Timezone (lib : Lib) (v : Validator) : Bool :=
  match v.value with
  | .str tz => lib.loadLocation tz
  | _ => false

/-- Predicate of `Unique`. -/
def Unique (existingValues : List Value) (v : Validator) : Bool :=
  notInLoop v.value false existingValues

/-- Predicate of `URL`. -/
def URL (lib : Lib) (v : Validator) : Bool :=
  match v.value with
  | .str str => lib.parseRequestURI str
  | _ => false

/-- Predicate of `UUID`. -/
def UUID (lib : Lib) (v : Validator) : Bool :=
  match v.value with
  | .str str => lib.uuidParse str
  | _ => false

/-- Predicate of `PasswordLetters`. -/
def PasswordLetters (lib : Lib) (v : Validator) : Bool :=
  match v.value with
  | .str str => anyLoop lib.isLetter false str.data
  | _ => false

/-- Predicate of `PasswordMixed`. -/
def PasswordMixed (lib : Lib) (v : Validator) : Bool :=
  match v.value with
  | .str str => mixedLoop lib false false false str.data
  | _ => false

/-- Predicate of `PasswordNumbers`. -/
def PasswordNumbers (lib : Lib) (v : Validator) : Bool :=
  match v.value with
  | .str str => anyLoop lib.isDigit false str.data
  | _ => false

/-- Predicate of `PasswordSymbols`. -/
def PasswordSymbols (lib : Lib) (v : Validator) : Bool :=
  match v.value with
  | .str str => anyLoop (fun char => lib.isPunct char || lib.isSymbol char) false str.data
  | _ => false

/-- Predicate of `PasswordUncompromised`: after the loop, `status` becomes true only
if it is not false already. -/
def PasswordUncompromised (leakedValues : List String) (v : Validator) : Bool :=
  match v.value with
  | .str str =>
    let status := leakedLoop str false leakedValues
    if status != false then true else status
  | _ => false

/-- Predicate of `MaxNumeric`: every integer and float kind is accepted, and the
comparison is made in `float64`. -/
def MaxNumeric (max : Int) (v : Validator) : Bool :=
  match v.value with
  | .int _ n => GoFloat.le (float64OfInt n) (float64OfInt max)
  | .float _ f => GoFloat.le f (float64OfInt max)
  | _ => false

/-- Predicate of `MaxString`. -/
def MaxString (max : Int) (v : Validator) : Bool :=
  match v.value with
  | .str str => decide ((len str : Int) ≤ max)
  | _ => false

/-- Predicate of `MinString`. -/
def MinString (min : Int) (v : Validator) : Bool :=
  match v.value with
  | .str str => decide ((len str : Int) ≥ min)
  | _ => false

/-- Predicate of `String`. -/
def String (v : Validator) : Bool :=
  match v.value with
  | .str _ => true
  | _ => false

end Status

/-! ## The rule methods

Every rule method computes its `status` and, when it is false, calls
`messageMaker` with its rule key; it then returns the session. -/

/-- Panic of a failed type assertion `value.(T)`. -/
def typeAssertionPanic : String := "interface conversion: interface {} is not of the asserted type"

/-- Panic of a map access with a key that cannot be hashed. -/
def unhashablePanic : String := "runtime error: hash of unhashable type"

/-- Panic of `==` on two interfaces holding the same uncomparable type. -/
def uncomparablePanic : String := "runtime error: comparing uncomparable type"

/-- Panic of `Interface` on the zero `reflect.Value`. -/
def zeroValuePanic : String := "reflect: call of reflect.Value.Interface on zero Value"

/-- The method `Accepted`. -/
def Validator.Accepted (lib : Lib) (v : Validator) : Outcome :=
  let status := Status.Accepted lib v
  if !status then v.messageMaker "accepted" else .ok v

/-- The method `AcceptedIf`. -/
def Validator.AcceptedIf (lib : Lib) (other : String) (otherValue : Value) (v : Validator) : Outcome :=
  let status := Status.AcceptedIf lib other otherValue v
  if !status then v.messageMaker "accepted_if" else .ok v

/-- The method `ActiveURL`. -/
def Validator.ActiveURL (lib : Lib) (v : Validator) : Outcome :=
  let status := Status.ActiveURL lib v
  if !status then v.messageMaker "active_url" else .ok v

/-- The method `After`. -/
def Validator.After (lib : Lib) (compareDate : Time) (v : Validator) : Outcome :=
  let status := Status.After lib compareDate v
  if !status then v.messageMaker "after" else .ok v

/-- The method `AfterOrEqual`. -/
def Validator.AfterOrEqual (lib : Lib) (compareDate : Time) (v : Validator) : Outcome :=
  let status := Status.AfterOrEqual lib compareDate v
  if !status then v.messageMaker "after_or_equal" else .ok v

/-- The method `Alpha`. -/
def Validator.Alpha (v : Validator) : Outcome :=
  let status := Status.Alpha v
  if !status then v.messageMaker "alpha" else .ok v

/-- The method `AlphaDash`. -/
def Validator.AlphaDash (v : Validator) : Outcome :=
  let status := Status.AlphaDash v
  if !status then v.messageMaker "alpha_dash" else .ok v

/-- The method `AlphaNum`. -/
def Validator.AlphaNum (v : Validator) : Outcome :=
  let status := Status.AlphaNum v
  if !status then v.messageMaker "alpha_num" else .ok v

/-- The method `Array`. -/
def Validator.Array (v : Validator) : Outcome :=
  let status := Status.Array v
  if !status then v.messageMaker "array" else .ok v

/-- The method `Before`. -/
def Validator.Before (lib : Lib) (compareDate : Time) (v : Validator) : Outcome :=
  let status := Status.Before lib compareDate v
  if !status then v.messageMaker "before" else .ok v

/-- The method `BeforeOrEqual`. -/
def Validator.BeforeOrEqual (lib : Lib) (compareDate : Time) (v : Validator) : Outcome :=
  let status := Status.BeforeOrEqual lib compareDate v
  if !status then v.messageMaker "before_or_equal" else .ok v

/-- The method `Boolean`. -/
def Validator.Boolean (v : Validator) : Outcome :=
  let status := Status.Boolean v
  if !status then v.messageMaker "boolean" else .ok v

/-- The method `Confirmed`. -/
def Validator.Confirmed (confirmValue : Value) (v : Validator) : Outcome :=
  let status := Status.Confirmed confirmValue v
  if !status then v.messageMaker "confirmed" else .ok v

/-- The method `Date`. -/
def Validator.Date (lib : Lib) (v : Validator) : Outcome :=
  let status := Status.Date lib v
  if !status then v.messageMaker "date" else .ok v

/-- The method `DateEquals`. -/
def Validator.DateEquals (lib : Lib) (compareDate : Time) (v : Validator) : Outcome :=
  let status := Status.DateEquals lib compareDate v
  if !status then v.messageMaker "date_equals" else .ok v

/-- The method `DateFormat`. -/
def Validator.DateFormat (lib : Lib) (format : String) (v : Validator) : Outcome :=
  let status := Status.DateFormat lib format v
  if !status then v.messageMaker "date_format" else .ok v

/-- The method `Declined`. -/
def Validator.Declined (lib : Lib) (v : Validator) : Outcome :=
  let status := Status.Declined lib v
  if !status then v.messageMaker "declined" else .ok v

/-- The method `DeclinedIf`. -/
def Validator.DeclinedIf (lib : Lib) (otherValue : Value) (value : Value) (v : Validator) : Outcome :=
  match Status.DeclinedIf lib otherValue value v with
  | none => .panic typeAssertionPanic
  | some status => if !status then v.messageMaker "declined_if" else .ok v

/-- The method `Different`. -/
def Validator.Different (otherValue : Value) (v : Validator) : Outcome :=
  let status := Status.Different otherValue v
  if !status then v.messageMaker "different" else .ok v

/-- The method `Digits`. -/
def Validator.Digits (digits : Int) (v : Validator) : Outcome :=
  let status := Status.Digits digits v
  if !status then v.messageMaker "digits" else .ok v

/-- The method `DigitsBetween`. -/
def Validator.DigitsBetween (min : Int) (max : Int) (v : Validator) : Outcome :=
  let status := Status.DigitsBetween min max v
  if !status then v.messageMaker "digits_between" else .ok v

/-- The method `Dimensions`. -/
def Validator.Dimensions (lib : Lib) (minWidth : Int) (minHeight : Int) (maxWidth : Int) (maxHeight : Int) (v : Validator) : Outcome :=
  let status := Status.Dimensions lib minWidth minHeight maxWidth maxHeight v
  if !status then v.messageMaker "dimensions" else .ok v

/-- The method `Distinct`. -/
def Validator.Distinct (v : Validator) : Outcome :=
  match Status.Distinct v with
  | none => .panic unhashablePanic
  | some status => if !status then v.messageMaker "distinct" else .ok v

/-- The method `Email`. -/
def Validator.Email (lib : Lib) (v : Validator) : Outcome :=
  let status := Status.Email lib v
  if !status then v.messageMaker "email" else .ok v

/-- The method `EndsWith`. -/
def Validator.EndsWith (values : List String) (v : Validator) : Outcome :=
  let status := Status.EndsWith values v
  if !status then v.messageMaker "ends_with" else .ok v

/-- The method `Exists`. -/
def Validator.Exists (validValues : List Value) (v : Validator) : Outcome :=
  match Status.Exists validValues v with
  | none => .panic uncomparablePanic
  | some status => if !status then v.messageMaker "exists" else .ok v

/-- The method `ExistsInString`. -/
def Validator.ExistsInString (validValues : List String) (v : Validator) : Outcome :=
  let status := Status.ExistsInString validValues v
  if !status then v.messageMaker "exists" else .ok v

/-- The method `Filled`. -/
def Validator.Filled (v : Validator) : Outcome :=
  let status := Status.Filled v
  if !status then v.messageMaker "filled" else .ok v

/-- The method `Image`. -/
def Validator.Image (lib : Lib) (v : Validator) : Outcome :=
  let status := Status.Image lib v
  if !status then v.messageMaker "image" else .ok v

/-- The method `In`. -/
def Validator.In (validValues : List Value) (v : Validator) : Outcome :=
  let status := Status.In validValues v
  if !status then v.messageMaker "in" else .ok v

/-- The method `Integer`. -/
def Validator.Integer (lib : Lib) (v : Validator) : Outcome :=
  let status := Status.Integer lib v
  if !status then v.messageMaker "integer" else .ok v

/-- The method `InArray`. -/
def Validator.InArray (arr : List Value) (v : Validator) : Outcome :=
  let status := Status.InArray arr v
  if !status then v.messageMaker "in_array" else .ok v

/-- The method `IP`. -/
def Validator.IP (lib : Lib) (v : Validator) : Outcome :=
  let status := Status.IP lib v
  if !status then v.messageMaker "ip" else .ok v

/-- The method `IPv4`. -/
def Validator.IPv4 (lib : Lib) (v : Validator) : Outcome :=
  let status := Status.IPv4 lib v
  if !status then v.messageMaker "ipv4" else .ok v

/-- The method `IPv6`. -/
def Validator.IPv6 (lib : Lib) (v : Validator) : Outcome :=
  let status := Status.IPv6 lib v
  if !status then v.messageMaker "ipv6" else .ok v

/-- The method `JSON`. -/
def Validator.JSON (lib : Lib) (v : Validator) : Outcome :=
  let status := Status.JSON lib v
  if !status then v.messageMaker "json" else .ok v

/-- The method `Mimes`. -/
def Validator.Mimes (lib : Lib) (validTypes : List String) (v : Validator) : Outcome :=
  let status := Status.Mimes lib validTypes v
  if !status then v.messageMaker "mimes" else .ok v

/-- The method `NotIn`. -/
def Validator.NotIn (invalidValues : List Value) (v : Validator) : Outcome :=
  let status := Status.NotIn invalidValues v
  if !status then v.messageMaker "not_in" else .ok v

/-- The method `NotRegex`. -/
def Validator.NotRegex (lib : Lib) (pattern : String) (v : Validator) : Outcome :=
  let status := Status.NotRegex lib pattern v
  if !status then v.messageMaker "not_regex" else .ok v

/-- The method `Numeric`. -/
def Validator.Numeric (lib : Lib) (v : Validator) : Outcome :=
  let status := Status.Numeric lib v
  if !status then v.messageMaker "numeric" else .ok v

/-- The method `Present`. -/
def Validator.Present (v : Validator) : Outcome :=
  let status := Status.Present v
  if !status then v.messageMaker "present" else .ok v

/-- The method `Prohibited`. -/
def Validator.Prohibited (v : Validator) : Outcome :=
  let status := Status.Prohibited v
  if !status then v.messageMaker "prohibited" else .ok v

/-- The method `ProhibitedIf`. -/
def Validator.ProhibitedIf (otherValue : Value) (v : Validator) : Outcome :=
  let status := Status.ProhibitedIf otherValue v
  if !status then v.messageMaker "prohibited_if" else .ok v

/-- The method `Regex`. -/
def Validator.Regex (lib : Lib) (pattern : String) (v : Validator) : Outcome :=
  let status := Status.Regex lib pattern v
  if !status then v.messageMaker "regex" else .ok v

/-- The method `Required`. -/
def Validator.Required (v : Validator) : Outcome :=
  let status := Status.Required v
  if !status then v.messageMaker "required" else .ok v

/-- The method `RequiredIf`. -/
def Validator.RequiredIf (otherValue : Value) (v : Validator) : Outcome :=
  let status := Status.RequiredIf otherValue v
  if !status then v.messageMaker "required_if" else .ok v

/-- The method `RequiredUnless`. -/
def Validator.RequiredUnless (otherValue : Value) (validValues : List Value) (v : Validator) : Outcome :=
  match Status.RequiredUnless otherValue validValues v with
  | none => .panic zeroValuePanic
  | some status => if !status then v.messageMaker "required_unless" else .ok v

/-- The method `Same`. -/
def Validator.Same (otherValue : Value) (v : Validator) : Outcome :=
  let status := Status.Same otherValue v
  if !status then v.messageMaker "same" else .ok v

/-- The method `StartsWith`. -/
def Validator.StartsWith (values : List String) (v : Validator) : Outcome :=
  let status := Status.StartsWith values v
  if !status then v.messageMaker "starts_with" else .ok v

/-- The method `Timezone`. -/
def Validator.Timezone (lib : Lib) (v : Validator) : Outcome :=
  let status := Status.Timezone lib v
  if !status then v.messageMaker "timezone" else .ok v

/-- The method `Unique`. -/
def Validator.Unique (existingValues : List Value) (v : Validator) : Outcome :=
  let status := Status.Unique existingValues v
  if !status then v.messageMaker "unique" else .ok v

/-- The method `URL`. -/
def Validator.URL (lib : Lib) (v : Validator) : Outcome :=
  let status := Status.URL lib v
  if !status then v.messageMaker "url" else .ok v

/-- The method `UUID`. -/
def Validator.UUID (lib : Lib) (v : Validator) : Outcome :=
  let status := Status.UUID lib v
  if !status then v.messageMaker "uuid" else .ok v

/-- The method `PasswordLetters`. -/
def Validator.PasswordLetters (lib : Lib) (v : Validator) : Outcome :=
  let status := Status.PasswordLetters lib v
  if !status then v.messageMaker "password_letters" else .ok v

/-- The method `PasswordMixed`. -/
def Validator.PasswordMixed (lib : Lib) (v : Validator) : Outcome :=
  let status := Status.PasswordMixed lib v
  if !status then v.messageMaker "password_mixed" else .ok v

/-- The method `PasswordNumbers`. -/
def Validator.PasswordNumbers (lib : Lib) (v : Validator) : Outcome :=
  let status := Status.PasswordNumbers lib v
  if !status then v.messageMaker "password_numbers" else .ok v

/-- The method `PasswordSymbols`. -/
def Validator.PasswordSymbols (lib : Lib) (v : Validator) : Outcome :=
  let status := Status.PasswordSymbols lib v
  if !status then v.messageMaker "password_symbols" else .ok v

/-- The method `PasswordUncompromised`. -/
def Validator.PasswordUncompromised (leakedValues : List String) (v : Validator) : Outcome :=
  let status := Status.PasswordUncompromised leakedValues v
  if !status then v.messageMaker "password_uncompromised" else .ok v

/-- The method `MaxNumeric`. -/
def Validator.MaxNumeric (max : Int) (v : Validator) : Outcome :=
  let status := Status.MaxNumeric max v
  if !status then v.messageMaker "max_numeric" else .ok v

/-- The method `MaxString`. -/
def Validator.MaxString (max : Int) (v : Validator) : Outcome :=
  let status := Status.MaxString max v
  if !status then v.messageMaker "max_string" else .ok v

/-- The method `MinString`. -/
def Validator.MinString (min : Int) (v : Validator) : Outcome :=
  let status := Status.MinString min v
  if !status then v.messageMaker "min_string" else .ok v

/-- The method `String`. -/
def Validator.String (v : Validator) : Outcome :=
  let status := Status.String v
  if !status then v.messageMaker "string" else .ok v

/-! ## Rule calls as data -/

/-- A call of a rule method together with its arguments. -/
inductive Rule
  | Accepted
  | AcceptedIf (other : String) (otherValue : Value)
  | ActiveURL
  | After (compareDate : Time)
  | AfterOrEqual (compareDate : Time)
  | Alpha
  | AlphaDash
  | AlphaNum
  | Array
  | Before (compareDate : Time)
  | BeforeOrEqual (compareDate : Time)
  | Boolean
  | Confirmed (confirmValue : Value)
  | Date
  | DateEquals (compareDate : Time)
  | DateFormat (format : String)
  | Declined
  | DeclinedIf (otherValue : Value) (value : Value)
  | Different (otherValue : Value)
  | Digits (digits : Int)
  | DigitsBetween (min : Int) (max : Int)
  | Dimensions (minWidth : Int) (minHeight : Int) (maxWidth : Int) (maxHeight : Int)
  | Distinct
  | Email
  | EndsWith (values : List String)
  | Exists (validValues : List Value)
  | ExistsInString (validValues : List String)
  | Filled
  | Image
  | In (validValues : List Value)
  | Integer
  | InArray (arr : List Value)
  | IP
  | IPv4
  | IPv6
  | JSON
  | Mimes (validTypes : List String)
  | NotIn (invalidValues : List Value)
  | NotRegex (pattern : String)
  | Numeric
  | Present
  | Prohibited
  | ProhibitedIf (otherValue : Value)
  | Regex (pattern : String)
  | Required
  | RequiredIf (otherValue : Value)
  | RequiredUnless (otherValue : Value) (validValues : List Value)
  | Same (otherValue : Value)
  | StartsWith (values : List String)
  | Timezone
  | Unique (existingValues : List Value)
  | URL
  | UUID
  | PasswordLetters
  | PasswordMixed
  | PasswordNumbers
  | PasswordSymbols
  | PasswordUncompromised (leakedValues : List String)
  | MaxNumeric (max : Int)
  | MaxString (max : Int)
  | MinString (min : Int)
  | String

/-- The rule key the method passes to `messageMaker`. -/
def ruleKey : Rule → String
  | .Accepted => "accepted"
  | .AcceptedIf _ _ => "accepted_if"
  | .ActiveURL => "active_url"
  | .After _ => "after"
  | .AfterOrEqual _ => "after_or_equal"
  | .Alpha => "alpha"
  | .AlphaDash => "alpha_dash"
  | .AlphaNum => "alpha_num"
  | .Array => "array"
  | .Before _ => "before"
  | .BeforeOrEqual _ => "before_or_equal"
  | .Boolean => "boolean"
  | .Confirmed _ => "confirmed"
  | .Date => "date"
  | .DateEquals _ => "date_equals"
  | .DateFormat _ => "date_format"
  | .Declined => "declined"
  | .DeclinedIf _ _ => "declined_if"
  | .Different _ => "different"
  | .Digits _ => "digits"
  | .DigitsBetween _ _ => "digits_between"
  | .Dimensions _ _ _ _ => "dimensions"
  | .Distinct => "distinct"
  | .Email => "email"
  | .EndsWith _ => "ends_with"
  | .Exists _ => "exists"
  | .ExistsInString _ => "exists"
  | .Filled => "filled"
  | .Image => "image"
  | .In _ => "in"
  | .Integer => "integer"
  | .InArray _ => "in_array"
  | .IP => "ip"
  | .IPv4 => "ipv4"
  | .IPv6 => "ipv6"
  | .JSON => "json"
  | .Mimes _ => "mimes"
  | .NotIn _ => "not_in"
  | .NotRegex _ => "not_regex"
  | .Numeric => "numeric"
  | .Present => "present"
  | .Prohibited => "prohibited"
  | .ProhibitedIf _ => "prohibited_if"
  | .Regex _ => "regex"
  | .Required => "required"
  | .RequiredIf _ => "required_if"
  | .RequiredUnless _ _ => "required_unless"
  | .Same _ => "same"
  | .StartsWith _ => "starts_with"
  | .Timezone => "timezone"
  | .Unique _ => "unique"
  | .URL => "url"
  | .UUID => "uuid"
  | .PasswordLetters => "password_letters"
  | .PasswordMixed => "password_mixed"
  | .PasswordNumbers => "password_numbers"
  | .PasswordSymbols => "password_symbols"
  | .PasswordUncompromised _ => "password_uncompromised"
  | .MaxNumeric _ => "max_numeric"
  | .MaxString _ => "max_string"
  | .MinString _ => "min_string"
  | .String => "string"

/-- The value of `status` at the final test of the rule method, `none` when the
method panics before reaching it. -/
def ruleStatus (lib : Lib) : Rule → Validator → Option Bool
  | .Accepted, v => some (Status.Accepted lib v)
  | .AcceptedIf other otherValue, v => some (Status.AcceptedIf lib other otherValue v)
  | .ActiveURL, v => some (Status.ActiveURL lib v)
  | .After compareDate, v => some (Status.After lib compareDate v)
  | .AfterOrEqual compareDate, v => some (Status.AfterOrEqual lib compareDate v)
  | .Alpha, v => some (Status.Alpha v)
  | .AlphaDash, v => some (Status.AlphaDash v)
  | .AlphaNum, v => some (Status.AlphaNum v)
  | .Array, v => some (Status.Array v)
  | .Before compareDate, v => some (Status.Before lib compareDate v)
  | .BeforeOrEqual compareDate, v => some (Status.BeforeOrEqual lib compareDate v)
  | .Boolean, v => some (Status.Boolean v)
  | .Confirmed confirmValue, v => some (Status.Confirmed confirmValue v)
  | .Date, v => some (Status.Date lib v)
  | .DateEquals compareDate, v => some (Status.DateEquals lib compareDate v)
  | .DateFormat format, v => some (Status.DateFormat lib format v)
  | .Declined, v => some (Status.Declined lib v)
  | .DeclinedIf otherValue value, v => Status.DeclinedIf lib otherValue value v
  | .Different otherValue, v => some (Status.Different otherValue v)
  | .Digits digits, v => some (Status.Digits digits v)
  | .DigitsBetween min max, v => some (Status.DigitsBetween min max v)
  | .Dimensions minWidth minHeight maxWidth maxHeight, v => some (Status.Dimensions lib minWidth minHeight maxWidth maxHeight v)
  | .Distinct, v => Status.Distinct v
  | .Email, v => some (Status.Email lib v)
  | .EndsWith values, v => some (Status.EndsWith values v)
  | .Exists validValues, v => Status.Exists validValues v
  | .ExistsInString validValues, v => some (Status.ExistsInString validValues v)
  | .Filled, v => some (Status.Filled v)
  | .Image, v => some (Status.Image lib v)
  | .In validValues, v => some (Status.In validValues v)
  | .Integer, v => some (Status.Integer lib v)
  | .InArray arr, v => some (Status.InArray arr v)
  | .IP, v => some (Status.IP lib v)
  | .IPv4, v => some (Status.IPv4 lib v)
  | .IPv6, v => some (Status.IPv6 lib v)
  | .JSON, v => some (Status.JSON lib v)
  | .Mimes validTypes, v => some (Status.Mimes lib validTypes v)
  | .NotIn invalidValues, v => some (Status.NotIn invalidValues v)
  | .NotRegex pattern, v => some (Status.NotRegex lib pattern v)
  | .Numeric, v => some (Status.Numeric lib v)
  | .Present, v => some (Status.Present v)
  | .Prohibited, v => some (Status.Prohibited v)
  | .ProhibitedIf otherValue, v => some (Status.ProhibitedIf otherValue v)
  | .Regex pattern, v => some (Status.Regex lib pattern v)
  | .Required, v => some (Status.Required v)
  | .RequiredIf otherValue, v => some (Status.RequiredIf otherValue v)
  | .RequiredUnless otherValue validValues, v => Status.RequiredUnless otherValue validValues v
  | .Same otherValue, v => some (Status.Same otherValue v)
  | .StartsWith values, v => some (Status.StartsWith values v)
  | .Timezone, v => some (Status.Timezone lib v)
  | .Unique existingValues, v => some (Status.Unique existingValues v)
  | .URL, v => some (Status.URL lib v)
  | .UUID, v => some (Status.UUID lib v)
  | .PasswordLetters, v => some (Status.PasswordLetters lib v)
  | .PasswordMixed, v => some (Status.PasswordMixed lib v)
  | .PasswordNumbers, v => some (Status.PasswordNumbers lib v)
  | .PasswordSymbols, v => some (Status.PasswordSymbols lib v)
  | .PasswordUncompromised leakedValues, v => some (Status.PasswordUncompromised leakedValues v)
  | .MaxNumeric max, v => some (Status.MaxNumeric max v)
  | .MaxString max, v => some (Status.MaxString max v)
  | .MinString min, v => some (Status.MinString min v)
  | .String, v => some (Status.String v)

/-- Calls the rule method on the session. -/
def runRule (lib : Lib) : Rule → Validator → Outcome
  | .Accepted, v => Validator.Accepted lib v
  | .AcceptedIf other otherValue, v => Validator.AcceptedIf lib other otherValue v
  | .ActiveURL, v => Validator.ActiveURL lib v
  | .After compareDate, v => Validator.After lib compareDate v
  | .AfterOrEqual compareDate, v => Validator.AfterOrEqual lib compareDate v
  | .Alpha, v => Validator.Alpha v
  | .AlphaDash, v => Validator.AlphaDash v
  | .AlphaNum, v => Validator.AlphaNum v
  | .Array, v => Validator.Array v
  | .Before compareDate, v => Validator.Before lib compareDate v
  | .BeforeOrEqual compareDate, v => Validator.BeforeOrEqual lib compareDate v
  | .Boolean, v => Validator.Boolean v
  | .Confirmed confirmValue, v => Validator.Confirmed confirmValue v
  | .Date, v => Validator.Date lib v
  | .DateEquals compareDate, v => Validator.DateEquals lib compareDate v
  | .DateFormat format, v => Validator.DateFormat lib format v
  | .Declined, v => Validator.Declined lib v
  | .DeclinedIf otherValue value, v => Validator.DeclinedIf lib otherValue value v
  | .Different otherValue, v => Validator.Different otherValue v
  | .Digits digits, v => Validator.Digits digits v
  | .DigitsBetween min max, v => Validator.DigitsBetween min max v
  | .Dimensions minWidth minHeight maxWidth maxHeight, v => Validator.Dimensions lib minWidth minHeight maxWidth maxHeight v
  | .Distinct, v => Validator.Distinct v
  | .Email, v => Validator.Email lib v
  | .EndsWith values, v => Validator.EndsWith values v
  | .Exists validValues, v => Validator.Exists validValues v
  | .ExistsInString validValues, v => Validator.ExistsInString validValues v
  | .Filled, v => Validator.Filled v
  | .Image, v => Validator.Image lib v
  | .In validValues, v => Validator.In validValues v
  | .Integer, v => Validator.Integer lib v
  | .InArray arr, v => Validator.InArray arr v
  | .IP, v => Validator.IP lib v
  | .IPv4, v => Validator.IPv4 lib v
  | .IPv6, v => Validator.IPv6 lib v
  | .JSON, v => Validator.JSON lib v
  | .Mimes validTypes, v => Validator.Mimes lib validTypes v
  | .NotIn invalidValues, v => Validator.NotIn invalidValues v
  | .NotRegex pattern, v => Validator.NotRegex lib pattern v
  | .Numeric, v => Validator.Numeric lib v
  | .Present, v => Validator.Present v
  | .Prohibited, v => Validator.Prohibited v
  | .ProhibitedIf otherValue, v => Validator.ProhibitedIf otherValue v
  | .Regex pattern, v => Validator.Regex lib pattern v
  | .Required, v => Validator.Required v
  | .RequiredIf otherValue, v => Validator.RequiredIf otherValue v
  | .RequiredUnless otherValue validValues, v => Validator.RequiredUnless otherValue validValues v
  | .Same otherValue, v => Validator.Same otherValue v
  | .StartsWith values, v => Validator.StartsWith values v
  | .Timezone, v => Validator.Timezone lib v
  | .Unique existingValues, v => Validator.Unique existingValues v
  | .URL, v => Validator.URL lib v
  | .UUID, v => Validator.UUID lib v
  | .PasswordLetters, v => Validator.PasswordLetters lib v
  | .PasswordMixed, v => Validator.PasswordMixed lib v
  | .PasswordNumbers, v => Validator.PasswordNumbers lib v
  | .PasswordSymbols, v => Validator.PasswordSymbols lib v
  | .PasswordUncompromised leakedValues, v => Validator.PasswordUncompromised leakedValues v
  | .MaxNumeric max, v => Validator.MaxNumeric max v
  | .MaxString max, v => Validator.MaxString max v
  | .MinString min, v => Validator.MinString min v
  | .String, v => Validator.String v

/-- Calls the rule methods of a chain one after the other; a panic ends the chain. -/
def runChain (lib : Lib) : List Rule → Validator → Outcome
  | [], v => .ok v
  | r :: rest, v => (runRule lib r v).andThen (runChain lib rest)

/-! ## Evaluation on concrete inputs -/

/-- A library for evaluating the rules on concrete inputs: case mapping and
character classes are those of ASCII, and every parser reports an error. -/
def plainLib : Lib where
  toLower := fun s => String.mk (s.data.map Char.toLower)
  equalFold := fun a b => a.data.map Char.toLower == b.data.map Char.toLower
  isLetter := fun c => c.isAlpha
  isUpper := fun c => c.isUpper
  isLower := fun c => c.isLower
  isDigit := fun c => c.isDigit
  isPunct := fun _ => false
  isSymbol := fun _ => false
  atoi := fun _ => false
  parseFloat := fun _ => false
  parseRequestURI := fun _ => false
  timeParse := fun _ _ => none
  regexpMatchString := fun _ _ => none
  emailMatch := fun _ => false
  parseIP := fun _ => none
  jsonValid := fun _ => false
  uuidParse := fun _ => false
  loadLocation := fun _ => false
  decodeConfig := fun _ => false
  decode := fun _ => none

/-- Message tables for evaluating the session on concrete inputs. -/
def sampleTables : Tables where
  EnValidationMsg :=
    [("required", "The :attr field is required."),
     ("string", "The :attr must be a string, :attr."),
     ("declined_if", "The :attr must be declined.")]
  FaValidationMsg := [("required", ":attr elzami ast."), ("string", ":attr bayad matn bashad.")]
  FaAttributes := [("email", "eemeyl")]

/-- The session `Attribute("email").Is(nil).EnMsg()`. -/
def emailSession : Validator := ((Attribute "email").Is .nil).EnMsg sampleTables

/-- The attribute name `messageMaker` leaves in the session: the entry of the
attribute table for the current name if there is one, else the current name. -/
def localizedName (v : Validator) : String :=
  match v.attributeTrans.lookup v.attributeName with
  | some attributeTrans => attributeTrans
  | none => v.attributeName

/-- The messages one rule call contributes, in the words of the specification: a
call whose predicate fails and whose key has a template contributes the composed
message, every other call contributes nothing. -/
def stepMessages (lib : Lib) (r : Rule) (v : Validator) : List String :=
  match ruleStatus lib r v with
  | some false =>
    match v.langMessages.lookup (ruleKey r) with
    | some tpl => [stringsReplace1 tpl ":attr" (localizedName v)]
    | none => []
  | _ => []

/-- The attribute name after one rule call: a failing call localizes it. -/
def stepName (lib : Lib) (r : Rule) (v : Validator) : String :=
  match ruleStatus lib r v with
  | some false => localizedName v
  | _ => v.attributeName

/-- The messages a chain of rule calls contributes: the contributions of its calls,
in call order. -/
def composedMessages (lib : Lib) : List Rule → Validator → List String
  | [], _ => []
  | r :: rest, v =>
    stepMessages lib r v ++
      composedMessages lib rest
        { v with attributeName := stepName lib r v,
                 messages := v.messages ++ stepMessages lib r v }

/-- Message tables whose attribute table has an entry for a localized name. -/
def chainedTables : Tables where
  EnValidationMsg := [("required", "The :attr field is required.")]
  FaValidationMsg := [("required", ":attr elzami ast.")]
  FaAttributes := [("email", "mail"), ("mail", "post")]

/-- Message tables with a template for each rule evaluated below. -/
def extendedTables : Tables where
  EnValidationMsg :=
    [("numeric", "The :attr must be a number."),
     ("alpha", "The :attr may only contain letters."),
     ("alpha_dash", "The :attr may only contain letters, numbers and dashes."),
     ("alpha_num", "The :attr may only contain letters and numbers."),
     ("required", "The :attr field is required."),
     ("filled", "The :attr field must have a value."),
     ("password_uncompromised", "The given :attr has appeared in a data leak.")]
  FaValidationMsg := [("numeric", ":attr bayad adad bashad.")]
  FaAttributes := [("age", "sen")]

/-- What a caller observes of a rule call through the session: the attribute name
and the message list it returns with, `none` for a panic. -/
def Outcome.observable : Outcome → Option (String × List String)
  | .ok v => some (v.attributeName, v.messages)
  | .panic _ => none

/-- A numeric zero, in the words of the specification: the zero of an integer or
floating-point kind. -/
def isNumericZero : Value → Bool
  | .int _ n => decide (n = 0)
  | .float _ f => GoFloat.eq f (.fin 0)
  | _ => false

/-- The values that are nil or the zero value of their dynamic type, variant by
variant: the empty string, `false`, a zero number, a nil slice, map or byte slice,
and the zero struct. -/
def isZeroValue : Value → Bool
  | .nil => true
  | .str s => s == ""
  | .bool b => !b
  | .int _ n => decide (n = 0)
  | .float _ f => GoFloat.eq f (.fin 0)
  | .slice _ => false
  | .nilSlice => true
  | .map _ => false
  | .nilMap => true
  | .bytes _ => false
  | .nilBytes => true
  | .file mime => mime == ""

/-- Message tables with a template for the membership and size rules evaluated below. -/
def membershipTables : Tables where
  EnValidationMsg :=
    [("distinct", "The :attr field has a duplicate value."),
     ("not_in", "The selected :attr is invalid."),
     ("unique", "The :attr has already been taken."),
     ("digits", "The :attr must have the given number of digits."),
     ("max_string", "The :attr is too long."),
     ("min_string", "The :attr is too short."),
     ("required", "The :attr field is required.")]
  FaValidationMsg := [("required", ":attr elzami ast.")]
  FaAttributes := [("tags", "barchasb")]

/-! ## Basic facts about rule calls -/

theorem runRule_pass (lib : Lib) (r : Rule) (v : Validator)
    (h : ruleStatus lib r v = some true) : runRule lib r v = .ok v := by
  cases r <;> simp only [ruleStatus, Option.some.injEq] at h <;>
    simp [runRule, Validator.Accepted, Validator.AcceptedIf, Validator.ActiveURL, Validator.After, Validator.AfterOrEqual, Validator.Alpha, Validator.AlphaDash, Validator.AlphaNum, Validator.Array, Validator.Before, Validator.BeforeOrEqual, Validator.Boolean, Validator.Confirmed, Validator.Date, Validator.DateEquals, Validator.DateFormat, Validator.Declined, Validator.DeclinedIf, Validator.Different, Validator.Digits, Validator.DigitsBetween, Validator.Dimensions, Validator.Distinct, Validator.Email, Validator.EndsWith, Validator.Exists, Validator.ExistsInString, Validator.Filled, Validator.Image, Validator.In, Validator.Integer, Validator.InArray, Validator.IP, Validator.IPv4, Validator.IPv6, Validator.JSON, Validator.Mimes, Validator.NotIn, Validator.NotRegex, Validator.Numeric, Validator.Present, Validator.Prohibited, Validator.ProhibitedIf, Validator.Regex, Validator.Required, Validator.RequiredIf, Validator.RequiredUnless, Validator.Same, Validator.StartsWith, Validator.Timezone, Validator.Unique, Validator.URL, Validator.UUID, Validator.PasswordLetters, Validator.PasswordMixed, Validator.PasswordNumbers, Validator.PasswordSymbols, Validator.PasswordUncompromised, Validator.MaxNumeric, Validator.MaxString, Validator.MinString, Validator.String, h]

theorem runRule_fail (lib : Lib) (r : Rule) (v : Validator)
    (h : ruleStatus lib r v = some false) : runRule lib r v = v.messageMaker (ruleKey r) := by
  cases r <;> simp only [ruleStatus, Option.some.injEq] at h <;>
    simp [runRule, ruleKey, Validator.Accepted, Validator.AcceptedIf, Validator.ActiveURL, Validator.After, Validator.AfterOrEqual, Validator.Alpha, Validator.AlphaDash, Validator.AlphaNum, Validator.Array, Validator.Before, Validator.BeforeOrEqual, Validator.Boolean, Validator.Confirmed, Validator.Date, Validator.DateEquals, Validator.DateFormat, Validator.Declined, Validator.DeclinedIf, Validator.Different, Validator.Digits, Validator.DigitsBetween, Validator.Dimensions, Validator.Distinct, Validator.Email, Validator.EndsWith, Validator.Exists, Validator.ExistsInString, Validator.Filled, Validator.Image, Validator.In, Validator.Integer, Validator.InArray, Validator.IP, Validator.IPv4, Validator.IPv6, Validator.JSON, Validator.Mimes, Validator.NotIn, Validator.NotRegex, Validator.Numeric, Validator.Present, Validator.Prohibited, Validator.ProhibitedIf, Validator.Regex, Validator.Required, Validator.RequiredIf, Validator.RequiredUnless, Validator.Same, Validator.StartsWith, Validator.Timezone, Validator.Unique, Validator.URL, Validator.UUID, Validator.PasswordLetters, Validator.PasswordMixed, Validator.PasswordNumbers, Validator.PasswordSymbols, Validator.PasswordUncompromised, Validator.MaxNumeric, Validator.MaxString, Validator.MinString, Validator.String, h]

theorem runRule_panic (lib : Lib) (r : Rule) (v : Validator)
    (h : ruleStatus lib r v = none) : ∃ msg, runRule lib r v = .panic msg := by
  cases r <;> simp only [ruleStatus] at h <;>
    first
      | exact absurd h (by simp)
      | exact ⟨_, by simp [runRule, Validator.Accepted, Validator.AcceptedIf, Validator.ActiveURL, Validator.After, Validator.AfterOrEqual, Validator.Alpha, Validator.AlphaDash, Validator.AlphaNum, Validator.Array, Validator.Before, Validator.BeforeOrEqual, Validator.Boolean, Validator.Confirmed, Validator.Date, Validator.DateEquals, Validator.DateFormat, Validator.Declined, Validator.DeclinedIf, Validator.Different, Validator.Digits, Validator.DigitsBetween, Validator.Dimensions, Validator.Distinct, Validator.Email, Validator.EndsWith, Validator.Exists, Validator.ExistsInString, Validator.Filled, Validator.Image, Validator.In, Validator.Integer, Validator.InArray, Validator.IP, Validator.IPv4, Validator.IPv6, Validator.JSON, Validator.Mimes, Validator.NotIn, Validator.NotRegex, Validator.Numeric, Validator.Present, Validator.Prohibited, Validator.ProhibitedIf, Validator.Regex, Validator.Required, Validator.RequiredIf, Validator.RequiredUnless, Validator.Same, Validator.StartsWith, Validator.Timezone, Validator.Unique, Validator.URL, Validator.UUID, Validator.PasswordLetters, Validator.PasswordMixed, Validator.PasswordNumbers, Validator.PasswordSymbols, Validator.PasswordUncompromised, Validator.MaxNumeric, Validator.MaxString, Validator.MinString, Validator.String, h]; rfl⟩

theorem messageMaker_unbound (v : Validator) (rule : String) (h : v.langMessages = []) :
    v.messageMaker rule = .panic noLanguagePanic := by
  simp [Validator.messageMaker, h]

theorem messageMaker_template (v : Validator) (rule tpl : String)
    (h : v.langMessages.lookup rule = some tpl) :
    v.messageMaker rule =
      .ok { v with attributeName := localizedName v,
                   messages := v.messages ++ [stringsReplace1 tpl ":attr" (localizedName v)] } := by
  have hne : v.langMessages ≠ [] := by
    intro h0
    rw [h0] at h
    simp at h
  have hlen : ¬ v.langMessages.length = 0 := by
    simpa [List.length_eq_zero] using hne
  unfold Validator.messageMaker localizedName
  rw [if_neg hlen]
  cases ha : v.attributeTrans.lookup v.attributeName <;> simp [h]

theorem messageMaker_no_template (v : Validator) (rule : String)
    (hne : v.langMessages ≠ []) (h : v.langMessages.lookup rule = none) :
    v.messageMaker rule = .ok { v with attributeName := localizedName v } := by
  have hlen : ¬ v.langMessages.length = 0 := by
    simpa [List.length_eq_zero] using hne
  unfold Validator.messageMaker localizedName
  rw [if_neg hlen]
  cases ha : v.attributeTrans.lookup v.attributeName <;> simp [h]

theorem errors_fst (v : Validator) : v.Errors.1 = v.messages.map Sprintf := by
  have key : ∀ (ms acc : List String),
      ms.foldl (fun errors message => errors ++ [Sprintf message]) acc = acc ++ ms.map Sprintf := by
    intro ms
    induction ms with
    | nil => intro acc; simp
    | cons m ms ih => intro acc; simp [ih]
  simp [Validator.Errors, key]

/-! ## Facts about the replacement of the placeholder -/

theorem replaceFirst_infix (old new : List Char) (hold : old ≠ []) (s : List Char)
    (h : old <:+: s) : new <:+: replaceFirst old new s := by
  induction s with
  | nil =>
    have : old = [] := List.infix_nil.mp h
    exact absurd this hold
  | cons c cs ih =>
    unfold replaceFirst
    by_cases hp : old.isPrefixOf (c :: cs) = true
    · rw [if_pos hp]
      exact (List.prefix_append _ _).isInfix
    · rw [if_neg hp]
      have hnp : ¬ old <+: c :: cs := by
        intro hpre
        exact hp (List.isPrefixOf_iff_prefix.mpr hpre)
      rcases List.infix_cons_iff.mp h with h1 | h1
      · exact absurd h1 hnp
      · exact List.infix_cons (ih h1)

theorem replaceFirst_absent (old new : List Char) (s : List Char)
    (h : ¬ old <:+: s) : replaceFirst old new s = s := by
  induction s with
  | nil => rfl
  | cons c cs ih =>
    unfold replaceFirst
    have hnp : ¬ old.isPrefixOf (c :: cs) = true := by
      intro hp
      exact h (List.isPrefixOf_iff_prefix.mp hp).isInfix
    rw [if_neg hnp, ih (fun hc => h (List.infix_cons hc))]

theorem replaceFirst_first (old new : List Char) (hold : old ≠ []) (pre post : List Char)
    (h : ∀ k, k < pre.length → ¬ old <+: (pre ++ old ++ post).drop k) :
    replaceFirst old new (pre ++ old ++ post) = pre ++ new ++ post := by
  induction pre with
  | nil =>
    obtain ⟨o, os, rfl⟩ := List.exists_cons_of_ne_nil hold
    have hp : (o :: os).isPrefixOf (o :: (os ++ post)) = true :=
      List.isPrefixOf_iff_prefix.mpr ⟨post, by simp⟩
    simp only [List.nil_append, List.cons_append]
    unfold replaceFirst
    rw [if_pos hp]
    simp
  | cons c pre ih =>
    have h0 : ¬ old <+: (c :: pre ++ old ++ post) := by
      simpa using h 0 (by simp)
    have hnp : ¬ old.isPrefixOf (c :: (pre ++ old ++ post)) = true := by
      intro hp
      exact h0 (by simpa using List.isPrefixOf_iff_prefix.mp hp)
    have ih1 := ih (fun k hk => by simpa using h (k + 1) (by simpa using hk))
    simp only [List.cons_append]
    unfold replaceFirst
    rw [if_neg (by simpa using hnp)]
    simpa using ih1

/-! ## Rule calls and the message list -/

/-- C1: on a session with a non-empty message table bound, a call of any rule
method whose predicate passes returns the session as it was: no message is appended,
and `Errors()` has the same length after the call as before. -/
theorem passing_rule_appends_nothing (lib : Lib) (r : Rule) (v : Validator)
    (_hbound : v.langMessages ≠ []) (hpass : ruleStatus lib r v = some true) :
    ∃ w, runRule lib r v = .ok w ∧ w.messages = v.messages ∧
      w.Errors.1.length = v.Errors.1.length :=
  ⟨v, runRule_pass lib r v hpass, rfl, rfl⟩

theorem passing_rule_appends_nothing_witness :
    (emailSession.Is (.str "abc")).langMessages ≠ [] ∧
    ruleStatus plainLib .String (emailSession.Is (.str "abc")) = some true ∧
    ∃ w, runRule plainLib .String (emailSession.Is (.str "abc")) = .ok w ∧
      w.messages = (emailSession.Is (.str "abc")).messages ∧
      w.Errors.1.length = (emailSession.Is (.str "abc")).Errors.1.length :=
  ⟨by decide, by decide,
    passing_rule_appends_nothing plainLib .String (emailSession.Is (.str "abc"))
      (by decide) (by decide)⟩

/-- C2, as stated, fails: `Filled` fails on the nil value of a session whose
non-empty message table has no entry `filled`, and the call appends nothing. -/
theorem failing_rule_message_counterexample :
    emailSession.langMessages ≠ [] ∧
    ruleStatus plainLib .Filled emailSession = some false ∧
    ∃ w, runRule plainLib .Filled emailSession = .ok w ∧
      w.messages.length = emailSession.messages.length :=
  ⟨by decide, by decide, emailSession, rfl, rfl⟩

/-- C2, amended: when the message table bound to the session has a template for the
key of the rule and the predicate of the rule fails, the call appends exactly one
message; that message is the template with its first placeholder replaced by the
attribute name the session then holds (the localized one if the attribute table has
it), and it contains that name whenever the template contains the placeholder. -/
theorem failing_rule_appends_one (lib : Lib) (r : Rule) (v : Validator) (tpl : String)
    (htpl : v.langMessages.lookup (ruleKey r) = some tpl)
    (hfail : ruleStatus lib r v = some false) :
    ∃ w msg, runRule lib r v = .ok w ∧ w.messages = v.messages ++ [msg] ∧
      w.messages.length = v.messages.length + 1 ∧
      w.attributeName = localizedName v ∧
      msg = stringsReplace1 tpl ":attr" w.attributeName ∧
      (":attr".data <:+: tpl.data → w.attributeName.data <:+: msg.data) := by
  refine ⟨_, _, (runRule_fail lib r v hfail).trans (messageMaker_template v _ tpl htpl),
    rfl, by simp, rfl, rfl, ?_⟩
  intro hin
  have hold : ":attr".data ≠ [] := by decide
  simp only [stringsReplace1, if_neg hold]
  exact replaceFirst_infix _ _ hold _ hin

theorem failing_rule_appends_one_witness :
    emailSession.langMessages.lookup (ruleKey .Required) = some "The :attr field is required." ∧
    ruleStatus plainLib .Required emailSession = some false ∧
    ∃ w msg, runRule plainLib .Required emailSession = .ok w ∧
      w.messages = emailSession.messages ++ [msg] ∧
      w.messages.length = emailSession.messages.length + 1 ∧
      w.attributeName = localizedName emailSession ∧
      msg = stringsReplace1 "The :attr field is required." ":attr" w.attributeName ∧
      (":attr".data <:+: "The :attr field is required.".data → w.attributeName.data <:+: msg.data) :=
  ⟨by decide, by decide,
    failing_rule_appends_one plainLib .Required emailSession "The :attr field is required."
      (by decide) (by decide)⟩

/-- C5: on a session with a non-empty message table that has no entry for the key of
a rule, a call of the rule whose predicate fails returns normally and leaves the
message list unchanged. -/
theorem failing_rule_without_template (lib : Lib) (r : Rule) (v : Validator)
    (hbound : v.langMessages ≠ [])
    (hno : v.langMessages.lookup (ruleKey r) = none)
    (hfail : ruleStatus lib r v = some false) :
    ∃ w, runRule lib r v = .ok w ∧ w.messages = v.messages :=
  ⟨_, (runRule_fail lib r v hfail).trans (messageMaker_no_template v _ hbound hno), rfl⟩

theorem failing_rule_without_template_witness :
    emailSession.langMessages ≠ [] ∧
    emailSession.langMessages.lookup (ruleKey .Boolean) = none ∧
    ruleStatus plainLib .Boolean emailSession = some false ∧
    ∃ w, runRule plainLib .Boolean emailSession = .ok w ∧ w.messages = emailSession.messages :=
  ⟨by decide, by decide, by decide,
    failing_rule_without_template plainLib .Boolean emailSession
      (by decide) (by decide) (by decide)⟩

/-- C7: with no language bound, a rule call whose predicate passes returns instead of
panicking. `Attribute("email").Is("abc").String()` returns the session as it was,
while the same call on the integer `7`, whose predicate fails, panics with the text
of `messageMaker` that asks for the language to be set before the validation
methods are called. -/
theorem unbound_passing_rule_returns :
    ((Attribute "email").Is (.str "abc")).langMessages = [] ∧
    ruleStatus plainLib .String ((Attribute "email").Is (.str "abc")) = some true ∧
    runRule plainLib .String ((Attribute "email").Is (.str "abc")) =
      .ok ((Attribute "email").Is (.str "abc")) ∧
    ((Attribute "email").Is (.int .int 7)).langMessages = [] ∧
    runRule plainLib .String ((Attribute "email").Is (.int .int 7)) = .panic noLanguagePanic :=
  ⟨rfl, rfl, rfl, rfl, rfl⟩

/-- On a session with no message table bound, a call of any rule method whose
predicate fails panics with the message of `messageMaker`, and a call whose predicate
passes returns the session unchanged. -/
theorem unbound_rule_panics_on_failure (lib : Lib) (r : Rule) (v : Validator)
    (hunbound : v.langMessages = []) :
    (ruleStatus lib r v = some false → runRule lib r v = .panic noLanguagePanic) ∧
    (ruleStatus lib r v = some true → runRule lib r v = .ok v) :=
  ⟨fun hfail => (runRule_fail lib r v hfail).trans (messageMaker_unbound v _ hunbound),
   fun hpass => runRule_pass lib r v hpass⟩

theorem unbound_rule_panics_on_failure_witness :
    ((Attribute "email").Is (.int .int 7)).langMessages = [] ∧
    ruleStatus plainLib .String ((Attribute "email").Is (.int .int 7)) = some false ∧
    runRule plainLib .String ((Attribute "email").Is (.int .int 7)) = .panic noLanguagePanic :=
  ⟨rfl, by decide,
    (unbound_rule_panics_on_failure plainLib .String ((Attribute "email").Is (.int .int 7)) rfl).1
      (by decide)⟩

theorem runRule_ok_eq (lib : Lib) (r : Rule) (v w : Validator)
    (hbound : v.langMessages ≠ []) (h : runRule lib r v = .ok w) :
    w = { v with attributeName := stepName lib r v,
                 messages := v.messages ++ stepMessages lib r v } := by
  cases hs : ruleStatus lib r v with
  | none =>
    obtain ⟨msg, hp⟩ := runRule_panic lib r v hs
    rw [hp] at h
    cases h
  | some b =>
    cases b with
    | true =>
      rw [runRule_pass lib r v hs] at h
      cases h
      simp [stepName, stepMessages, hs]
    | false =>
      rw [runRule_fail lib r v hs] at h
      cases ht : v.langMessages.lookup (ruleKey r) with
      | none =>
        rw [messageMaker_no_template v _ hbound ht] at h
        cases h
        simp [stepName, stepMessages, hs, ht]
      | some tpl =>
        rw [messageMaker_template v _ tpl ht] at h
        cases h
        simp [stepName, stepMessages, hs, ht]

theorem runRule_returns (lib : Lib) (r : Rule) (v : Validator)
    (hbound : v.langMessages ≠ []) (hs : ruleStatus lib r v ≠ none) :
    ∃ w, runRule lib r v = .ok w := by
  cases hst : ruleStatus lib r v with
  | none => exact absurd hst hs
  | some b =>
    cases b with
    | true => exact ⟨v, runRule_pass lib r v hst⟩
    | false =>
      rw [runRule_fail lib r v hst]
      cases ht : v.langMessages.lookup (ruleKey r) with
      | none => exact ⟨_, messageMaker_no_template v _ hbound ht⟩
      | some tpl => exact ⟨_, messageMaker_template v _ tpl ht⟩

theorem runChain_messages (lib : Lib) (rules : List Rule) :
    ∀ (v w : Validator), v.langMessages ≠ [] → runChain lib rules v = .ok w →
      w.messages = v.messages ++ composedMessages lib rules v ∧
      w.langMessages = v.langMessages ∧ w.attributeTrans = v.attributeTrans := by
  induction rules with
  | nil =>
    intro v w _ h
    simp only [runChain] at h
    cases h
    simp [composedMessages]
  | cons r rest ih =>
    intro v w hbound h
    simp only [runChain] at h
    cases h1 : runRule lib r v with
    | panic msg =>
      rw [h1] at h
      simp [Outcome.andThen] at h
    | ok u =>
      rw [h1] at h
      simp only [Outcome.andThen] at h
      have hu := runRule_ok_eq lib r v u hbound h1
      have hub : u.langMessages ≠ [] := by rw [hu]; exact hbound
      obtain ⟨hm, hl, ha⟩ := ih u w hub h
      subst hu
      refine ⟨?_, hl, ha⟩
      rw [hm]
      simp [composedMessages]

theorem runChain_returns (lib : Lib) (rules : List Rule) :
    ∀ (v : Validator), v.langMessages ≠ [] →
      (∀ r, r ∈ rules → ∀ u, ruleStatus lib r u ≠ none) →
      ∃ w, runChain lib rules v = .ok w := by
  induction rules with
  | nil => intro v _ _; exact ⟨v, rfl⟩
  | cons r rest ih =>
    intro v hbound hall
    obtain ⟨u, hu⟩ := runRule_returns lib r v hbound (hall r (List.mem_cons_self _ _) v)
    have hub : u.langMessages ≠ [] := by
      rw [runRule_ok_eq lib r v u hbound hu]; exact hbound
    obtain ⟨w, hw⟩ := ih u hub (fun r1 h1 => hall r1 (List.mem_cons_of_mem _ h1))
    exact ⟨w, by simp [runChain, hu, Outcome.andThen, hw]⟩

/-- C3: on a session with a translator bound, a chain of rule calls that returns
leaves the earlier messages as an unchanged prefix of the message list and adds
exactly the composed messages of its failing calls, in call order, passing calls
adding nothing; and a chain of calls none of which can panic does return. -/
theorem chain_messages_in_call_order (lib : Lib) (rules : List Rule) (v : Validator)
    (hbound : v.langMessages ≠ []) :
    (∀ w, runChain lib rules v = .ok w →
      w.messages = v.messages ++ composedMessages lib rules v ∧ v.messages <+: w.messages) ∧
    ((∀ r, r ∈ rules → ∀ u, ruleStatus lib r u ≠ none) →
      ∃ w, runChain lib rules v = .ok w) := by
  refine ⟨fun w h => ?_, runChain_returns lib rules v hbound⟩
  have hm := (runChain_messages lib rules v w hbound h).1
  exact ⟨hm, ⟨_, hm.symm⟩⟩

theorem chain_messages_in_call_order_witness :
    emailSession.langMessages ≠ [] ∧
    composedMessages plainLib [.Prohibited, .Required, .Boolean, .String] emailSession =
      ["The email field is required.", "The email must be a string, :attr."] ∧
    ∃ w, runChain plainLib [.Prohibited, .Required, .Boolean, .String] emailSession = .ok w ∧
      w.messages = emailSession.messages ++
          composedMessages plainLib [.Prohibited, .Required, .Boolean, .String] emailSession ∧
      emailSession.messages <+: w.messages := by
  have h := chain_messages_in_call_order plainLib [.Prohibited, .Required, .Boolean, .String]
    emailSession (by decide)
  obtain ⟨w, hw⟩ := h.2 (by
    intro r hr u
    simp only [List.mem_cons, List.mem_singleton, List.not_mem_nil, or_false] at hr
    rcases hr with rfl | rfl | rfl | rfl <;> simp [ruleStatus])
  exact ⟨by decide, by decide, w, hw, h.1 w hw⟩

/-- C4: for a failing rule whose key has the template `t` in the bound message
table, the call appends one message; the session's attribute name becomes the
localized name when the attribute table has one and stays as it was otherwise; the
message is `t` with the first occurrence of `:attr` replaced by that name, what
follows that occurrence being kept as it is, and `t` itself when `:attr` does not
occur in it. -/
theorem message_composition (lib : Lib) (r : Rule) (v : Validator) (t : String)
    (htpl : v.langMessages.lookup (ruleKey r) = some t)
    (hfail : ruleStatus lib r v = some false) :
    ∃ w msg, runRule lib r v = .ok w ∧ w.messages = v.messages ++ [msg] ∧
      (∀ n, v.attributeTrans.lookup v.attributeName = some n → w.attributeName = n) ∧
      (v.attributeTrans.lookup v.attributeName = none → w.attributeName = v.attributeName) ∧
      (∀ pre post, t.data = pre ++ ":attr".data ++ post →
        (∀ k, k < pre.length → ¬ ":attr".data <+: t.data.drop k) →
        msg.data = pre ++ w.attributeName.data ++ post) ∧
      (¬ ":attr".data <:+: t.data → msg = t) := by
  have hold : ":attr".data ≠ [] := by decide
  refine ⟨_, _, (runRule_fail lib r v hfail).trans (messageMaker_template v _ t htpl),
    rfl, ?_, ?_, ?_, ?_⟩
  · intro n hn
    simp [localizedName, hn]
  · intro hn
    simp [localizedName, hn]
  · intro pre post hsplit hfirst
    simp only [stringsReplace1, if_neg hold]
    rw [hsplit]
    exact replaceFirst_first _ _ hold pre post (fun k hk => by rw [← hsplit]; exact hfirst k hk)
  · intro habsent
    simp only [stringsReplace1, if_neg hold]
    rw [replaceFirst_absent _ _ _ habsent]

theorem message_composition_witness :
    emailSession.langMessages.lookup (ruleKey .String) =
      some "The :attr must be a string, :attr." ∧
    ruleStatus plainLib .String emailSession = some false ∧
    ∃ w msg, runRule plainLib .String emailSession = .ok w ∧
      w.messages = emailSession.messages ++ [msg] ∧
      w.attributeName = "email" ∧
      msg.data = "The ".data ++ w.attributeName.data ++ " must be a string, :attr.".data := by
  obtain ⟨w, msg, h1, h2, _, h4, h5, _⟩ :=
    message_composition plainLib .String emailSession "The :attr must be a string, :attr."
      (by decide) (by decide)
  exact ⟨by decide, by decide, w, msg, h1, h2, h4 (by decide),
    h5 "The ".data " must be a string, :attr.".data (by decide) (by decide)⟩

theorem runChain_name_fixed (lib : Lib) (n : String) (rules : List Rule) :
    ∀ (v w : Validator), v.langMessages ≠ [] → v.attributeName = n →
      (v.attributeTrans.lookup n = none ∨ v.attributeTrans.lookup n = some n) →
      runChain lib rules v = .ok w →
      w.attributeName = n ∧ w.langMessages = v.langMessages ∧
        w.attributeTrans = v.attributeTrans := by
  induction rules with
  | nil =>
    intro v w _ hn _ h
    simp only [runChain] at h
    cases h
    exact ⟨hn, rfl, rfl⟩
  | cons r rest ih =>
    intro v w hbound hn hfix h
    simp only [runChain] at h
    cases h1 : runRule lib r v with
    | panic msg =>
      rw [h1] at h
      simp [Outcome.andThen] at h
    | ok u =>
      rw [h1] at h
      simp only [Outcome.andThen] at h
      have hu := runRule_ok_eq lib r v u hbound h1
      have hloc : localizedName v = n := by
        unfold localizedName
        rw [hn]
        rcases hfix with h0 | h0 <;> simp [h0]
      have hun : u.attributeName = n := by
        rw [hu]
        simp only [stepName]
        split
        · exact hloc
        · exact hn
      have hul : u.langMessages = v.langMessages := by rw [hu]
      have hua : u.attributeTrans = v.attributeTrans := by rw [hu]
      obtain ⟨h2, h3, h4⟩ := ih u w (by rw [hul]; exact hbound) hun (by rw [hua]; exact hfix) h
      exact ⟨h2, h3.trans hul, h4.trans hua⟩

/-- C6, as stated, fails: with an attribute table that also has an entry for the
localized name, a first failing call rewrites `email` to `mail` and a second failing
call rewrites `mail` to `post`. -/
theorem attribute_translated_twice_counterexample :
    ∃ v1 v2, runRule plainLib .Required (((Attribute "email").Is .nil).FaMsg chainedTables) = .ok v1 ∧
      v1.attributeName = "mail" ∧ v1.messages = ["mail elzami ast."] ∧
      ruleStatus plainLib .Required v1 = some false ∧
      runRule plainLib .Required v1 = .ok v2 ∧
      v2.attributeName = "post" ∧ v2.messages = ["mail elzami ast.", "post elzami ast."] :=
  ⟨_, _, rfl, by decide, by decide, by decide, rfl, by decide, by decide⟩

/-- C6, amended: when a failing rule rewrites the attribute name of the session to
its localized name `n` and the attribute table has no entry for `n` other than `n`
itself, then after every further chain of rule calls the attribute name is still
`n`, and every later failing rule leaves it unchanged and substitutes `n` into its
message. -/
theorem localized_name_reused (lib : Lib) (v : Validator) (r1 : Rule) (n : String)
    (hbound : v.langMessages ≠ [])
    (hfail : ruleStatus lib r1 v = some false)
    (hloc : v.attributeTrans.lookup v.attributeName = some n)
    (hfix : v.attributeTrans.lookup n = none ∨ v.attributeTrans.lookup n = some n) :
    ∃ v1, runRule lib r1 v = .ok v1 ∧ v1.attributeName = n ∧
      ∀ (rules : List Rule) (v2 : Validator), runChain lib rules v1 = .ok v2 →
        v2.attributeName = n ∧
        ∀ (r2 : Rule), ruleStatus lib r2 v2 = some false →
          ∃ v3, runRule lib r2 v2 = .ok v3 ∧ v3.attributeName = n ∧
            ∀ tpl, v2.langMessages.lookup (ruleKey r2) = some tpl →
              v3.messages = v2.messages ++ [stringsReplace1 tpl ":attr" n] := by
  obtain ⟨v1, h1⟩ := runRule_returns lib r1 v hbound (by rw [hfail]; simp)
  have hv1 := runRule_ok_eq lib r1 v v1 hbound h1
  have hn1 : v1.attributeName = n := by
    rw [hv1]
    simp [stepName, hfail, localizedName, hloc]
  have hl1 : v1.langMessages = v.langMessages := by rw [hv1]
  have ha1 : v1.attributeTrans = v.attributeTrans := by rw [hv1]
  refine ⟨v1, h1, hn1, ?_⟩
  intro rules v2 h2
  obtain ⟨hn2, hl2, ha2⟩ := runChain_name_fixed lib n rules v1 v2 (by rw [hl1]; exact hbound)
    hn1 (by rw [ha1]; exact hfix) h2
  refine ⟨hn2, ?_⟩
  intro r2 hf2
  have hb2 : v2.langMessages ≠ [] := by rw [hl2, hl1]; exact hbound
  have hloc2 : localizedName v2 = n := by
    unfold localizedName
    rw [hn2, ha2, ha1]
    rcases hfix with h0 | h0 <;> simp [h0]
  obtain ⟨v3, h3⟩ := runRule_returns lib r2 v2 hb2 (by rw [hf2]; simp)
  have hv3 := runRule_ok_eq lib r2 v2 v3 hb2 h3
  refine ⟨v3, h3, ?_, ?_⟩
  · rw [hv3]
    simp [stepName, hf2, hloc2]
  · intro tpl ht
    rw [hv3]
    simp [stepMessages, hf2, ht, hloc2]

theorem localized_name_reused_witness :
    (emailSession.FaMsg sampleTables).langMessages ≠ [] ∧
    ruleStatus plainLib .Required (emailSession.FaMsg sampleTables) = some false ∧
    (emailSession.FaMsg sampleTables).attributeTrans.lookup
      (emailSession.FaMsg sampleTables).attributeName = some "eemeyl" ∧
    (emailSession.FaMsg sampleTables).attributeTrans.lookup "eemeyl" = none ∧
    ∃ v1, runRule plainLib .Required (emailSession.FaMsg sampleTables) = .ok v1 ∧
      v1.attributeName = "eemeyl" ∧
      ∀ (rules : List Rule) (v2 : Validator), runChain plainLib rules v1 = .ok v2 →
        v2.attributeName = "eemeyl" ∧
        ∀ (r2 : Rule), ruleStatus plainLib r2 v2 = some false →
          ∃ v3, runRule plainLib r2 v2 = .ok v3 ∧ v3.attributeName = "eemeyl" ∧
            ∀ tpl, v2.langMessages.lookup (ruleKey r2) = some tpl →
              v3.messages = v2.messages ++ [stringsReplace1 tpl ":attr" "eemeyl"] :=
  ⟨by decide, by decide, by decide, by decide,
    localized_name_reused plainLib (emailSession.FaMsg sampleTables) .Required "eemeyl"
      (by decide) (by decide) (by decide) (Or.inl (by decide))⟩

/-! ## Panics inside rule methods -/

/-- C8: rule calls that panic on a session with a message table bound. `DeclinedIf`
asserts the type of `value` unchecked, `RequiredUnless` unwraps the reflection value
of a nil `otherValue`, `Distinct` hashes a slice, and `Exists` compares two slices
with `==`. -/
theorem rule_calls_that_panic :
    emailSession.langMessages ≠ [] ∧
    runRule plainLib (.DeclinedIf (.str "a") (.int .int 1)) (emailSession.Is (.str "no")) =
      .panic typeAssertionPanic ∧
    runRule plainLib (.RequiredUnless .nil [.int .int 1]) (emailSession.Is (.str "x")) =
      .panic zeroValuePanic ∧
    runRule plainLib .Distinct (emailSession.Is (.slice [.slice [.int .int 1]])) =
      .panic unhashablePanic ∧
    runRule plainLib (.Exists [.slice []]) (emailSession.Is (.slice [])) =
      .panic uncomparablePanic :=
  ⟨by decide, rfl, rfl, rfl, rfl⟩

/-! ## Result extraction -/

theorem doPrintf_percent_free (cs : List Char) :
    ∀ fuel, cs.length < fuel → (∀ c, c ∈ cs → c ≠ '%') → doPrintf fuel cs = cs := by
  induction cs with
  | nil =>
    intro fuel hf _
    cases fuel with
    | zero => simp at hf
    | succ k => rfl
  | cons c cs ih =>
    intro fuel hf hall
    cases fuel with
    | zero => simp at hf
    | succ k =>
      have hc : c ≠ '%' := hall c (List.mem_cons_self _ _)
      simp only [doPrintf, if_pos hc]
      rw [ih k (by simpa using hf) (fun d hd => hall d (List.mem_cons_of_mem _ hd))]

theorem sprintf_percent_free (s : String) (h : ∀ c, c ∈ s.data → c ≠ '%') : Sprintf s = s := by
  unfold Sprintf
  rw [doPrintf_percent_free s.data (s.length + 1) (Nat.lt_succ_self s.data.length) h]

theorem error_nil_iff (v : Validator) : v.Error.1 = none ↔ v.messages = [] := by
  unfold Validator.Error
  cases v.messages <;> simp

theorem error_percent_free (v : Validator) (m : String) (rest : List String)
    (hm : v.messages = m :: rest) (h : ∀ c, c ∈ m.data → c ≠ '%') :
    v.Error = (some m, v) := by
  unfold Validator.Error
  rw [hm]
  simp [sprintf_percent_free m h]

theorem errors_length (v : Validator) :
    v.Errors.1.length = v.messages.length ∧ v.Errors.2 = v ∧ v.Error.2 = v := by
  refine ⟨by simp [errors_fst], rfl, ?_⟩
  unfold Validator.Error
  cases v.messages <;> rfl

theorem errors_percent_free (v : Validator)
    (h : ∀ m, m ∈ v.messages → ∀ c, c ∈ m.data → c ≠ '%') : v.Errors.1 = v.messages := by
  rw [errors_fst]
  conv_rhs => rw [← List.map_id v.messages]
  exact List.map_congr_left (fun m hm => by simpa using sprintf_percent_free m (h m hm))

/-- C9: the text of `Error()` is the message run through the formatter of `fmt`, not
the message. After `Attribute("rate%").Is(nil).EnMsg().Required()` the message is
`The rate% field is required.` and the error text is
`The rate%!f(MISSING)ield is required.`. -/
theorem error_text_is_formatted :
    ∃ w, runRule plainLib .Required (((Attribute "rate%").Is .nil).EnMsg sampleTables) = .ok w ∧
      w.messages = ["The rate% field is required."] ∧
      w.Error.1 = some "The rate%!f(MISSING)ield is required." ∧
      w.Error.1 ≠ some "The rate% field is required." :=
  ⟨_, rfl, by decide, by decide, by decide⟩

/-- C10: the texts of `Errors()` are the messages run through the formatter of
`fmt`, not the messages. After
`Attribute("50%").Is(nil).EnMsg().Required().String()` the two messages contain a
percent sign and both error texts differ from them. -/
theorem errors_texts_are_formatted :
    ∃ w, runChain plainLib [.Required, .String] (((Attribute "50%").Is .nil).EnMsg sampleTables) =
        .ok w ∧
      w.messages = ["The 50% field is required.", "The 50% must be a string, :attr."] ∧
      w.Errors.1 =
        ["The 50%!f(MISSING)ield is required.", "The 50%!m(MISSING)ust be a string, :attr."] ∧
      w.Errors.1 ≠ w.messages :=
  ⟨_, rfl, by decide, by decide, by decide⟩

/-! ## Language selection -/

theorem ifaceEq_fa (lan : Value) : ifaceEq lan (.str Fa) = some true ↔ lan = .str "fa" := by
  cases lan <;> simp [ifaceEq, Value.type, GoType.comparable, deepEqual, Fa]

theorem ifaceEq_fa_returns (lan : Value) : ifaceEq lan (.str Fa) ≠ none := by
  cases lan <;> simp [ifaceEq, Value.type, GoType.comparable, Fa]

/-- C11: for every tag other than the string `fa`, strings of unsupported languages
and values that are no strings included, the comparison in `Lang` does not panic and
`Lang(tag)` leaves the session in the state `EnMsg()` leaves it in, with the English
message table bound; `Lang("fa")` leaves it in the state `FaMsg()` leaves it in. -/
theorem lang_binds_english_unless_fa (t : Tables) (v : Validator) (lan : Value)
    (hother : lan ≠ .str "fa") :
    ifaceEq lan (.str Fa) ≠ none ∧
    v.Lang t lan = v.EnMsg t ∧
    (v.Lang t lan).langMessages = t.EnValidationMsg ∧
    v.Lang t (.str "fa") = v.FaMsg t := by
  have hne : ¬ ifaceEq lan (.str Fa) = some true := fun h => hother ((ifaceEq_fa lan).mp h)
  have hfa : ifaceEq (.str "fa") (.str Fa) = some true := (ifaceEq_fa _).mpr rfl
  refine ⟨ifaceEq_fa_returns lan, ?_, ?_, ?_⟩
  · simp [Validator.Lang, Validator.EnMsg, hne]
  · simp [Validator.Lang, hne]
  · simp [Validator.Lang, Validator.FaMsg, hfa]

theorem lang_binds_english_unless_fa_witness :
    Value.int .int 7 ≠ .str "fa" ∧
    ifaceEq (.int .int 7) (.str Fa) ≠ none ∧
    (Attribute "email").Lang sampleTables (.int .int 7) = (Attribute "email").EnMsg sampleTables ∧
    ((Attribute "email").Lang sampleTables (.int .int 7)).langMessages =
      sampleTables.EnValidationMsg ∧
    (Attribute "email").Lang sampleTables (.str "fa") = (Attribute "email").FaMsg sampleTables :=
  ⟨by simp, lang_binds_english_unless_fa sampleTables (Attribute "email") (.int .int 7) (by simp)⟩

/-! ## Character classes -/

/-- C12: the character-class rules pass on strings with characters outside the
class. With the English templates bound, `Alpha` on `abc123`, `AlphaNum` on `a b!`
and `AlphaDash` on `a_b` have a true status and return the session with no message,
although not every character is in the class. -/
theorem character_class_rules_ignore_violations :
    "abc123".data.all isAlphaChar = false ∧
    ruleStatus plainLib .Alpha (((Attribute "name").Is (.str "abc123")).EnMsg extendedTables) =
      some true ∧
    runRule plainLib .Alpha (((Attribute "name").Is (.str "abc123")).EnMsg extendedTables) =
      .ok (((Attribute "name").Is (.str "abc123")).EnMsg extendedTables) ∧
    "a b!".data.all isAlphaNumChar = false ∧
    runRule plainLib .AlphaNum (((Attribute "name").Is (.str "a b!")).EnMsg extendedTables) =
      .ok (((Attribute "name").Is (.str "a b!")).EnMsg extendedTables) ∧
    "a_b".data.all isAlphaDashChar = false ∧
    runRule plainLib .AlphaDash (((Attribute "name").Is (.str "a_b")).EnMsg extendedTables) =
      .ok (((Attribute "name").Is (.str "a_b")).EnMsg extendedTables) :=
  ⟨by decide, rfl, rfl, by decide, rfl, by decide, rfl⟩

/-! ## The numeric rule and the optional flag -/

theorem ifaceEq_int_zero (x : Value) :
    ifaceEq x (.int .int 0) = some true ↔ x = .int .int 0 := by
  cases x with
  | int k n =>
    by_cases hk : k = .int
    · subst hk
      simp [ifaceEq, Value.type, GoType.comparable, deepEqual]
    · simp [ifaceEq, Value.type, hk]
  | _ => simp [ifaceEq, Value.type]

/-- C13, as stated, fails: with a translator bound whose table has no template for
`numeric`, `Numeric()` on the integer `0` of a session that is not marked optional
fails and appends nothing. -/
theorem numeric_zero_counterexample :
    (emailSession.Is (.int .int 0)).langMessages ≠ [] ∧
    (emailSession.Is (.int .int 0)).langMessages.lookup "numeric" = none ∧
    (emailSession.Is (.int .int 0)).optional = false ∧
    ruleStatus plainLib .Numeric (emailSession.Is (.int .int 0)) = some false ∧
    runRule plainLib .Numeric (emailSession.Is (.int .int 0)) =
      .ok (emailSession.Is (.int .int 0)) ∧
    (emailSession.Is (.int .int 0)).messages = [] :=
  ⟨by decide, by decide, rfl, rfl, rfl, rfl⟩

/-- C13, amended: on a session bound to the integer `0` whose message table has a
template for `numeric`, `Numeric()` fails and appends the composed `numeric` message
when the session is not marked optional; on the same session after `Optional()` it
passes and returns the session with nothing appended. -/
theorem numeric_zero_asymmetry (lib : Lib) (v : Validator) (tpl : String)
    (hval : v.value = .int .int 0)
    (htpl : v.langMessages.lookup "numeric" = some tpl)
    (hopt : v.optional = false) :
    ruleStatus lib .Numeric v = some false ∧
    runRule lib .Numeric v =
      .ok { v with attributeName := localizedName v,
                   messages := v.messages ++ [stringsReplace1 tpl ":attr" (localizedName v)] } ∧
    ruleStatus lib .Numeric v.Optional = some true ∧
    runRule lib .Numeric v.Optional = .ok v.Optional := by
  have hz : ifaceEq (Value.int .int 0) (.int .int 0) = some true := (ifaceEq_int_zero _).mpr rfl
  have hfail : ruleStatus lib .Numeric v = some false := by
    simp [ruleStatus, Status.Numeric, Status.numericZeroTest, hval, hopt, hz]
  have hpass : ruleStatus lib .Numeric v.Optional = some true := by
    simp [ruleStatus, Status.Numeric, Status.numericZeroTest, Validator.Optional, hval]
  exact ⟨hfail, (runRule_fail lib _ v hfail).trans (messageMaker_template v _ tpl htpl),
    hpass, runRule_pass lib _ _ hpass⟩

theorem numeric_zero_asymmetry_witness :
    (((Attribute "age").Is (.int .int 0)).EnMsg extendedTables).value = .int .int 0 ∧
    (((Attribute "age").Is (.int .int 0)).EnMsg extendedTables).langMessages.lookup "numeric" =
      some "The :attr must be a number." ∧
    (((Attribute "age").Is (.int .int 0)).EnMsg extendedTables).optional = false ∧
    runRule plainLib .Numeric (((Attribute "age").Is (.int .int 0)).EnMsg extendedTables) =
      .ok { ((Attribute "age").Is (.int .int 0)).EnMsg extendedTables with
              messages := ["The age must be a number."] } ∧
    runRule plainLib .Numeric (((Attribute "age").Is (.int .int 0)).EnMsg extendedTables).Optional =
      .ok (((Attribute "age").Is (.int .int 0)).EnMsg extendedTables).Optional := by
  have h := numeric_zero_asymmetry plainLib
    (((Attribute "age").Is (.int .int 0)).EnMsg extendedTables) "The :attr must be a number."
    rfl (by decide) rfl
  exact ⟨rfl, by decide, rfl, h.2.1.trans rfl, h.2.2.2⟩

theorem numeric_passes_on_other_kinds (lib : Lib) (v : Validator) (n : Int) (f : GoFloat)
    (k : FloatKind) :
    ruleStatus lib .Numeric { v with value := .int .int32 n } = some true ∧
    ruleStatus lib .Numeric { v with value := .int .int64 n } = some true ∧
    ruleStatus lib .Numeric { v with value := .float k f } = some true := by
  refine ⟨?_, ?_, ?_⟩
  · simp [ruleStatus, Status.Numeric, Status.numericZeroTest, ifaceEq, Value.type]
  · simp [ruleStatus, Status.Numeric, Status.numericZeroTest, ifaceEq, Value.type]
  · cases k <;> simp [ruleStatus, Status.Numeric, Status.numericZeroTest, ifaceEq, Value.type]

/-- C14: `Numeric()` passes on the zero of every accepted kind but `int`. With the
English templates bound and the session not marked optional, the calls on
`float64(0)`, `float32(0)`, `int64(0)` and `int32(0)` have a true status and return
the session with no message, while the call on `int(0)` fails. -/
theorem numeric_zero_of_other_kinds_passes :
    (((Attribute "age").Is (.float .float64 (.fin 0))).EnMsg extendedTables).optional = false ∧
    runRule plainLib .Numeric (((Attribute "age").Is (.float .float64 (.fin 0))).EnMsg extendedTables) =
      .ok (((Attribute "age").Is (.float .float64 (.fin 0))).EnMsg extendedTables) ∧
    runRule plainLib .Numeric (((Attribute "age").Is (.float .float32 (.fin 0))).EnMsg extendedTables) =
      .ok (((Attribute "age").Is (.float .float32 (.fin 0))).EnMsg extendedTables) ∧
    runRule plainLib .Numeric (((Attribute "age").Is (.int .int64 0)).EnMsg extendedTables) =
      .ok (((Attribute "age").Is (.int .int64 0)).EnMsg extendedTables) ∧
    runRule plainLib .Numeric (((Attribute "age").Is (.int .int32 0)).EnMsg extendedTables) =
      .ok (((Attribute "age").Is (.int .int32 0)).EnMsg extendedTables) ∧
    ruleStatus plainLib .Numeric (((Attribute "age").Is (.int .int 0)).EnMsg extendedTables) =
      some false :=
  ⟨rfl, rfl, rfl, rfl, rfl, rfl⟩

theorem ruleStatus_optional (lib : Lib) (r : Rule) (v : Validator) (b : Bool)
    (hr : r ≠ .Numeric) :
    ruleStatus lib r { v with optional := b } = ruleStatus lib r v := by
  cases r <;> first | rfl | exact absurd rfl hr

theorem numeric_status_optional (lib : Lib) (v : Validator) (b : Bool)
    (hz : isNumericZero v.value = false) :
    ruleStatus lib .Numeric { v with optional := b } = ruleStatus lib .Numeric v := by
  have hne : ¬ ifaceEq v.value (.int .int 0) = some true := by
    intro h
    rw [(ifaceEq_int_zero _).mp h] at hz
    simp [isNumericZero] at hz
  simp only [ruleStatus, Status.Numeric, Status.numericZeroTest]
  cases hv : v.value <;> simp_all

theorem observable_of_status (lib : Lib) (r : Rule) (v : Validator) (b1 b2 : Bool)
    (h : ruleStatus lib r { v with optional := b1 } = ruleStatus lib r { v with optional := b2 }) :
    (runRule lib r { v with optional := b1 }).observable =
      (runRule lib r { v with optional := b2 }).observable := by
  cases hs : ruleStatus lib r { v with optional := b2 } with
  | none =>
    obtain ⟨m1, h1⟩ := runRule_panic lib r _ (h.trans hs)
    obtain ⟨m2, h2⟩ := runRule_panic lib r _ hs
    rw [h1, h2]
    rfl
  | some st =>
    cases st with
    | true =>
      rw [runRule_pass lib r _ (h.trans hs), runRule_pass lib r _ hs]
      rfl
    | false =>
      rw [runRule_fail lib r _ (h.trans hs), runRule_fail lib r _ hs]
      unfold Validator.messageMaker
      by_cases hl : v.langMessages.length = 0
      · simp [hl, Outcome.observable]
      · simp only [hl, if_false]
        cases v.attributeTrans.lookup v.attributeName <;>
          cases v.langMessages.lookup (ruleKey r) <;> simp [Outcome.observable]

/-- C15: two sessions that differ only in the optional flag give, under every rule
method other than `Numeric` and with every bound value and parameters, the same
attribute name and the same messages (or both panic); under `Numeric` they do so
whenever the bound value is not a numeric zero. -/
theorem optional_affects_only_numeric_zero (lib : Lib) (r : Rule) (v : Validator)
    (b1 b2 : Bool) :
    (r ≠ .Numeric →
      (runRule lib r { v with optional := b1 }).observable =
        (runRule lib r { v with optional := b2 }).observable) ∧
    (isNumericZero v.value = false →
      (runRule lib .Numeric { v with optional := b1 }).observable =
        (runRule lib .Numeric { v with optional := b2 }).observable) := by
  constructor
  · intro hr
    exact observable_of_status lib r v b1 b2
      ((ruleStatus_optional lib r v b1 hr).trans (ruleStatus_optional lib r v b2 hr).symm)
  · intro hz
    exact observable_of_status lib .Numeric v b1 b2
      ((numeric_status_optional lib v b1 hz).trans (numeric_status_optional lib v b2 hz).symm)

theorem optional_affects_only_numeric_zero_witness :
    Rule.Required ≠ .Numeric ∧
    (runRule plainLib .Required { emailSession with optional := true }).observable =
      (runRule plainLib .Required { emailSession with optional := false }).observable ∧
    isNumericZero (emailSession.Is (.int .int 5)).value = false ∧
    (runRule plainLib .Numeric { emailSession.Is (.int .int 5) with optional := true }).observable =
      (runRule plainLib .Numeric { emailSession.Is (.int .int 5) with optional := false }).observable :=
  ⟨by simp,
    (optional_affects_only_numeric_zero plainLib .Required emailSession true false).1 (by simp),
    by decide,
    (optional_affects_only_numeric_zero plainLib .Required (emailSession.Is (.int .int 5))
      true false).2 (by decide)⟩

/-! ## Presence rules -/

/-- C16: whenever the side condition of `RequiredIf` is false, the call passes and
returns the session with no message appended, whatever the bound value, the empty
ones (nil, the empty string, zero, false) included. -/
theorem requiredIf_vacuous_pass (lib : Lib) (otherValue : Value) (v : Validator)
    (hcond : deepEqualReflected v.value otherValue = false) :
    ruleStatus lib (.RequiredIf otherValue) v = some true ∧
    runRule lib (.RequiredIf otherValue) v = .ok v := by
  have hpass : ruleStatus lib (.RequiredIf otherValue) v = some true := by
    simp [ruleStatus, Status.RequiredIf, hcond]
  exact ⟨hpass, runRule_pass lib _ v hpass⟩

theorem requiredIf_vacuous_pass_witness :
    deepEqualReflected (emailSession.Is (.str "")).value (.str "x") = false ∧
    ruleStatus plainLib (.RequiredIf (.str "x")) (emailSession.Is (.str "")) = some true ∧
    runRule plainLib (.RequiredIf (.str "x")) (emailSession.Is (.str "")) =
      .ok (emailSession.Is (.str "")) :=
  ⟨rfl, requiredIf_vacuous_pass plainLib (.str "x") (emailSession.Is (.str "")) rfl⟩

theorem notZero_eq (x : Value) : notZero x = !isZeroValue x := by
  cases x <;> simp [notZero, isValid, zeroOf, deepEqual, isZeroValue]

/-- C17, as stated, fails: `Required()` passes on a string of three spaces, which is
empty after trimming, and on an empty non-nil sequence and map. -/
theorem required_counterexample :
    trimSpace "   " = "" ∧
    ruleStatus plainLib .Required (emailSession.Is (.str "   ")) = some true ∧
    runRule plainLib .Required (emailSession.Is (.str "   ")) = .ok (emailSession.Is (.str "   ")) ∧
    ruleStatus plainLib .Required (emailSession.Is (.slice [])) = some true ∧
    ruleStatus plainLib .Required (emailSession.Is (.map [])) = some true :=
  ⟨by decide, rfl, rfl, rfl, rfl⟩

/-- C17, amended: `Required()` fails iff the bound value is nil or the zero value of
its dynamic type: the empty string, `false`, a zero number, or a nil sequence, map or
byte slice; every other value passes. -/
theorem required_fails_iff_zero_value (lib : Lib) (v : Validator) :
    (ruleStatus lib .Required v = some false ↔ isZeroValue v.value = true) ∧
    (ruleStatus lib .Required v = some true ↔ isZeroValue v.value = false) := by
  simp [ruleStatus, Status.Required, notZero_eq]

/-- C18, as stated, fails: `Filled()` passes on the integer `0` and on `false`. -/
theorem filled_counterexample :
    ruleStatus plainLib .Filled (emailSession.Is (.int .int 0)) = some true ∧
    runRule plainLib .Filled (emailSession.Is (.int .int 0)) = .ok (emailSession.Is (.int .int 0)) ∧
    ruleStatus plainLib .Filled (emailSession.Is (.bool false)) = some true ∧
    runRule plainLib .Filled (emailSession.Is (.bool false)) = .ok (emailSession.Is (.bool false)) :=
  ⟨rfl, rfl, rfl, rfl⟩

/-- C18, amended: `Filled()` fails iff the bound value is nil, a string that is empty
after trimming white space, or a sequence or map of length zero; every other value,
a zero number and `false` included, passes. -/
theorem filled_fails_iff (lib : Lib) (v : Validator) :
    ruleStatus lib .Filled v = some false ↔
      (v.value = .nil ∨ (∃ s, v.value = .str s ∧ trimSpace s = "") ∨
        v.value = .slice [] ∨ v.value = .nilSlice ∨ v.value = .map [] ∨ v.value = .nilMap) := by
  simp only [ruleStatus, Status.Filled, Option.some.injEq]
  cases hv : v.value <;> simp [isValid]

/-- C19: for every bound value, nil included, the predicate of `Prohibited` is the
negation of the predicate of `Present`: exactly one of the two passes. -/
theorem prohibited_is_negation_of_present (lib : Lib) (v : Validator) :
    ∃ b, ruleStatus lib .Present v = some b ∧ ruleStatus lib .Prohibited v = some (!b) := by
  refine ⟨Status.Present v, rfl, ?_⟩
  simp only [ruleStatus, Status.Prohibited, Status.Present, isZero, notZero]
  cases isValid v.value <;> cases deepEqual v.value (zeroOf v.value) <;> rfl

/-! ## Passwords -/

theorem leakedLoop_false (str : String) (leakedValues : List String) :
    leakedLoop str false leakedValues = false := by
  induction leakedValues with
  | nil => rfl
  | cons leaked rest ih =>
    unfold leakedLoop
    split
    · rfl
    · exact ih

theorem passwordUncompromised_string_fails (v : Validator) (str : String)
    (leakedValues : List String) (hv : v.value = .str str) :
    Status.PasswordUncompromised leakedValues v = false := by
  simp [Status.PasswordUncompromised, hv, leakedLoop_false]

/-- C20: `PasswordUncompromised` fails on a string that equals no leaked value. With
the English templates bound, the calls on `secret` with an empty list and with the
list `["hunter2"]` have a false status and append the message. -/
theorem passwordUncompromised_fails_without_match :
    ruleStatus plainLib (.PasswordUncompromised [])
        (((Attribute "password").Is (.str "secret")).EnMsg extendedTables) = some false ∧
    runRule plainLib (.PasswordUncompromised [])
        (((Attribute "password").Is (.str "secret")).EnMsg extendedTables) =
      .ok { ((Attribute "password").Is (.str "secret")).EnMsg extendedTables with
              messages := ["The given password has appeared in a data leak."] } ∧
    ruleStatus plainLib (.PasswordUncompromised ["hunter2"])
        (((Attribute "password").Is (.str "secret")).EnMsg extendedTables) = some false ∧
    runRule plainLib (.PasswordUncompromised ["hunter2"])
        (((Attribute "password").Is (.str "secret")).EnMsg extendedTables) =
      .ok { ((Attribute "password").Is (.str "secret")).EnMsg extendedTables with
              messages := ["The given password has appeared in a data leak."] } :=
  ⟨rfl, rfl, rfl, rfl⟩

/-! ## Membership rules -/

/-- C21: `Distinct()` passes on a sequence with two equal elements. With the English
templates bound, the call on `[1, 1]` has a true status and returns the session with
no message, although the two elements are equal. -/
theorem distinct_passes_on_duplicates :
    ifaceEq (.int .int 1) (.int .int 1) = some true ∧
    ruleStatus plainLib .Distinct
        (((Attribute "tags").Is (.slice [.int .int 1, .int .int 1])).EnMsg membershipTables) =
      some true ∧
    runRule plainLib .Distinct
        (((Attribute "tags").Is (.slice [.int .int 1, .int .int 1])).EnMsg membershipTables) =
      .ok (((Attribute "tags").Is (.slice [.int .int 1, .int .int 1])).EnMsg membershipTables) :=
  ⟨rfl, rfl, rfl⟩

theorem notInLoop_eq (x : Value) (l : List Value) :
    ∀ status, notInLoop x status l = if l.isEmpty then status else !(l.any (deepEqual x)) := by
  induction l with
  | nil => intro status; rfl
  | cons y ys ih =>
    intro status
    unfold notInLoop
    by_cases h : deepEqual x y = true
    · simp [h]
    · rw [if_neg h, ih true]
      cases ys <;> simp [h]

theorem notIn_status (lib : Lib) (v : Validator) (l : List Value) :
    ruleStatus lib (.NotIn l) v = some (!l.isEmpty && !(l.any (deepEqual v.value))) ∧
    ruleStatus lib (.Unique l) v = some (!l.isEmpty && !(l.any (deepEqual v.value))) := by
  simp only [ruleStatus, Status.NotIn, Status.Unique, notInLoop_eq]
  cases l <;> simp

/-- C22: `NotIn` and `Unique` fail on the empty list. With the English templates
bound, the calls on the string `a` with an empty list have a false status and append
the message of the rule. -/
theorem notIn_and_unique_fail_on_empty_list :
    ruleStatus plainLib (.NotIn []) (((Attribute "tags").Is (.str "a")).EnMsg membershipTables) =
      some false ∧
    runRule plainLib (.NotIn []) (((Attribute "tags").Is (.str "a")).EnMsg membershipTables) =
      .ok { ((Attribute "tags").Is (.str "a")).EnMsg membershipTables with
              messages := ["The selected tags is invalid."] } ∧
    ruleStatus plainLib (.Unique []) (((Attribute "tags").Is (.str "a")).EnMsg membershipTables) =
      some false ∧
    runRule plainLib (.Unique []) (((Attribute "tags").Is (.str "a")).EnMsg membershipTables) =
      .ok { ((Attribute "tags").Is (.str "a")).EnMsg membershipTables with
              messages := ["The tags has already been taken."] } :=
  ⟨rfl, rfl, rfl, rfl⟩

/-! ## Size rules -/

theorem len_eq_utf8ByteSize (s : String) : len s = s.utf8ByteSize := by
  cases s with
  | mk cs =>
    simp only [len, String.utf8ByteSize]
    induction cs with
    | nil => rfl
    | cons c cs ih => simp [String.utf8ByteSize.go, ih, Nat.add_comm]

/-- C23, as stated, fails: the string `é` has one character and two bytes;
`MaxString(1)` fails on it and `MinString(2)` passes on it. -/
theorem string_length_counterexample :
    "é".length = 1 ∧
    ruleStatus plainLib (.MaxString 1)
        (((Attribute "name").Is (.str "é")).EnMsg membershipTables) = some false ∧
    runRule plainLib (.MaxString 1) (((Attribute "name").Is (.str "é")).EnMsg membershipTables) =
      .ok { ((Attribute "name").Is (.str "é")).EnMsg membershipTables with
              messages := ["The name is too long."] } ∧
    ruleStatus plainLib (.MinString 2)
        (((Attribute "name").Is (.str "é")).EnMsg membershipTables) = some true :=
  ⟨by decide, by decide, rfl, by decide⟩

/-- C23, amended: `MaxString(n)` passes iff the bound value is a string whose UTF-8
encoding has at most `n` bytes, and `MinString(n)` passes iff it is a string whose
encoding has at least `n` bytes; every value that is no string fails both. -/
theorem string_length_bounds_count_bytes (lib : Lib) (v : Validator) (n : Int) :
    (ruleStatus lib (.MaxString n) v = some true ↔
      ∃ s, v.value = .str s ∧ (s.utf8ByteSize : Int) ≤ n) ∧
    (ruleStatus lib (.MinString n) v = some true ↔
      ∃ s, v.value = .str s ∧ (s.utf8ByteSize : Int) ≥ n) := by
  simp only [ruleStatus, Status.MaxString, Status.MinString, Option.some.injEq]
  cases hv : v.value <;> simp [len_eq_utf8ByteSize]

theorem digitChar_utf8Size (d : Nat) (hd : d < 10) : (Nat.digitChar d).utf8Size = 1 := by
  interval_cases d <;> rfl

theorem toDigitsCore_utf8Size (fuel : Nat) :
    ∀ (n : Nat) (ds : List Char), (∀ c, c ∈ ds → c.utf8Size = 1) →
      ∀ c, c ∈ Nat.toDigitsCore 10 fuel n ds → c.utf8Size = 1 := by
  induction fuel with
  | zero => intro n ds h c hc; exact h c (by simpa [Nat.toDigitsCore] using hc)
  | succ k ih =>
    intro n ds h c hc
    have hds : ∀ c, c ∈ Nat.digitChar (n % 10) :: ds → c.utf8Size = 1 := by
      intro c hc
      rcases List.mem_cons.mp hc with rfl | hc
      · exact digitChar_utf8Size _ (Nat.mod_lt _ (by decide))
      · exact h c hc
    simp only [Nat.toDigitsCore] at hc
    split at hc
    · exact hds c hc
    · exact ih _ _ hds c hc

theorem sum_utf8Size_of_ascii (cs : List Char) (h : ∀ c, c ∈ cs → c.utf8Size = 1) :
    (cs.map Char.utf8Size).sum = cs.length := by
  induction cs with
  | nil => rfl
  | cons c cs ih =>
    simp only [List.map_cons, List.sum_cons, List.length_cons]
    rw [h c (List.mem_cons_self _ _), ih (fun d hd => h d (List.mem_cons_of_mem _ hd))]
    omega

theorem len_sprintfD (x : Int) :
    len (sprintfD x) = (if x < 0 then 1 else 0) + (Nat.toDigits 10 x.natAbs).length := by
  have hd : ∀ c, c ∈ Nat.toDigits 10 x.natAbs → c.utf8Size = 1 :=
    toDigitsCore_utf8Size _ _ [] (by simp)
  unfold len sprintfD
  by_cases hx : x < 0
  · simp only [hx, if_true, List.cons_append, List.nil_append, List.map_cons, List.sum_cons]
    rw [sum_utf8Size_of_ascii _ hd]
    rfl
  · simp only [hx, if_false, List.nil_append]
    rw [sum_utf8Size_of_ascii _ hd]
    omega

/-- C24: on a negative integer `Digits` and `DigitsBetween` count the minus sign as a
digit. With the English templates bound, `Digits(3)` on `-123` fails and appends the
message, `Digits(4)` passes, and `DigitsBetween(1, 3)` fails. -/
theorem digits_count_the_minus_sign :
    ruleStatus plainLib (.Digits 3)
        (((Attribute "code").Is (.int .int (-123))).EnMsg membershipTables) = some false ∧
    runRule plainLib (.Digits 3) (((Attribute "code").Is (.int .int (-123))).EnMsg membershipTables) =
      .ok { ((Attribute "code").Is (.int .int (-123))).EnMsg membershipTables with
              messages := ["The code must have the given number of digits."] } ∧
    ruleStatus plainLib (.Digits 4)
        (((Attribute "code").Is (.int .int (-123))).EnMsg membershipTables) = some true ∧
    ruleStatus plainLib (.DigitsBetween 1 3)
        (((Attribute "code").Is (.int .int (-123))).EnMsg membershipTables) = some false :=
  ⟨by decide, rfl, by decide, by decide⟩

/-! ## The status after the loop -/

theorem distinctLoop_returns (status : Bool) (xs : List Value) :
    ∀ seen, (∀ x, x ∈ xs → hashable x = true) → distinctLoop status seen xs ≠ none := by
  induction xs with
  | nil => intro seen _; simp [distinctLoop]
  | cons x xs ih =>
    intro seen h
    have hx : hashable x = true := h x (List.mem_cons_self _ _)
    unfold distinctLoop
    simp only [hx, Bool.not_true, Bool.false_eq_true, if_false]
    split
    · simp
    · exact ih _ (fun y hy => h y (List.mem_cons_of_mem _ hy))

/-- C25, as stated, fails: `NotIn` and `Unique` do not pass on a list that contains
the bound value. With the English templates bound, the calls on the string `a` with
the list `["a"]` have a false status and append the message of the rule. -/
theorem notIn_on_member_counterexample :
    deepEqual (.str "a") (.str "a") = true ∧
    ruleStatus plainLib (.NotIn [.str "a"])
        (((Attribute "tags").Is (.str "a")).EnMsg membershipTables) = some false ∧
    runRule plainLib (.NotIn [.str "a"]) (((Attribute "tags").Is (.str "a")).EnMsg membershipTables) =
      .ok { ((Attribute "tags").Is (.str "a")).EnMsg membershipTables with
              messages := ["The selected tags is invalid."] } ∧
    ruleStatus plainLib (.Unique [.str "a"])
        (((Attribute "tags").Is (.str "a")).EnMsg membershipTables) = some false ∧
    runRule plainLib (.Unique [.str "a"]) (((Attribute "tags").Is (.str "a")).EnMsg membershipTables) =
      .ok { ((Attribute "tags").Is (.str "a")).EnMsg membershipTables with
              messages := ["The tags has already been taken."] } :=
  ⟨rfl, rfl, rfl, rfl, rfl⟩

/-- C25, amended: in `Alpha`, `AlphaDash`, `AlphaNum` and `Distinct` the status set in
the loop is overwritten after it, so the three character-class rules pass on every
string and `Distinct` passes on every sequence whose items can all be hashed, each
returning the session with no message; in `NotIn` and `Unique` nothing follows the
loop, and both fail on every list that contains the bound value. -/
theorem status_after_the_loop (lib : Lib) (v : Validator) :
    (∀ s, v.value = .str s →
      runRule lib .Alpha v = .ok v ∧ runRule lib .AlphaDash v = .ok v ∧
        runRule lib .AlphaNum v = .ok v) ∧
    (∀ xs, v.value = .slice xs → (∀ x, x ∈ xs → hashable x = true) →
      runRule lib .Distinct v = .ok v) ∧
    (∀ l, l.any (deepEqual v.value) = true →
      ruleStatus lib (.NotIn l) v = some false ∧ ruleStatus lib (.Unique l) v = some false) := by
  refine ⟨?_, ?_, ?_⟩
  · intro s hs
    refine ⟨runRule_pass lib _ v ?_, runRule_pass lib _ v ?_, runRule_pass lib _ v ?_⟩
    · simp [ruleStatus, Status.Alpha, hs]
    · simp [ruleStatus, Status.AlphaDash, hs]
    · simp [ruleStatus, Status.AlphaNum, hs]
  · intro xs hxs hall
    apply runRule_pass
    have hne := distinctLoop_returns false xs [] hall
    simp only [ruleStatus, Status.Distinct, hxs]
    cases hd : distinctLoop false [] xs with
    | none => exact absurd hd hne
    | some b => rfl
  · intro l hl
    have h := notIn_status lib v l
    rw [hl] at h
    simpa using h

theorem status_after_the_loop_witness :
    runRule plainLib .Alpha (emailSession.Is (.str "abc123")) =
      .ok (emailSession.Is (.str "abc123")) ∧
    [Value.str "x", Value.str "x"].any (deepEqual (emailSession.Is (.str "x")).value) = true ∧
    ruleStatus plainLib (.NotIn [.str "x", .str "x"]) (emailSession.Is (.str "x")) = some false ∧
    runRule plainLib .Distinct (emailSession.Is (.slice [.str "x", .str "x"])) =
      .ok (emailSession.Is (.slice [.str "x", .str "x"])) :=
  ⟨((status_after_the_loop plainLib (emailSession.Is (.str "abc123"))).1 "abc123" rfl).1,
    by decide,
    ((status_after_the_loop plainLib (emailSession.Is (.str "x"))).2.2
      [.str "x", .str "x"] (by decide)).1,
    (status_after_the_loop plainLib (emailSession.Is (.slice [.str "x", .str "x"]))).2.1
      [.str "x", .str "x"] rfl (by decide)⟩

/-! ## Conditional presence -/

theorem deepEqualReflected_false (x otherValue : Value) :
    deepEqualReflected x otherValue = false := by
  unfold deepEqualReflected
  cases x.type <;> rfl

/-- C26: for every bound value and every `otherValue`, `RequiredIf(otherValue)` and
`ProhibitedIf(otherValue)` pass and return the session as it was: the side condition
compares the bound value with the reflection wrapper of `otherValue` and never
holds. -/
theorem requiredIf_prohibitedIf_never_enforced (lib : Lib) (v : Validator) (otherValue : Value) :
    deepEqualReflected v.value otherValue = false ∧
    runRule lib (.RequiredIf otherValue) v = .ok v ∧
    runRule lib (.ProhibitedIf otherValue) v = .ok v := by
  have h := deepEqualReflected_false v.value otherValue
  refine ⟨h, runRule_pass lib _ v ?_, runRule_pass lib _ v ?_⟩
  · simp [ruleStatus, Status.RequiredIf, h]
  · simp [ruleStatus, Status.ProhibitedIf, h]

/-! ## Switching the language -/

/-- C27: `EnMsg()` and `Lang(tag)` with a tag other than `fa` replace the message
table and nothing else. After `FaMsg()` or `Lang("fa")` a switch to English keeps the
Farsi attribute table bound, and a failing rule then composes the English template
with the Farsi name of the attribute. -/
theorem english_switch_keeps_attribute_table (lib : Lib) (t : Tables) (v : Validator)
    (lan : Value) (r : Rule) (tpl n : String)
    (hother : lan ≠ .str "fa")
    (htpl : t.EnValidationMsg.lookup (ruleKey r) = some tpl)
    (hattr : t.FaAttributes.lookup v.attributeName = some n)
    (hfail : ruleStatus lib r ((v.FaMsg t).EnMsg t) = some false) :
    v.EnMsg t = { v with langMessages := t.EnValidationMsg } ∧
    v.Lang t lan = { v with langMessages := t.EnValidationMsg } ∧
    ((v.FaMsg t).EnMsg t).attributeTrans = t.FaAttributes ∧
    ((v.Lang t (.str "fa")).Lang t lan).attributeTrans = t.FaAttributes ∧
    (v.Lang t (.str "fa")).Lang t lan = (v.FaMsg t).EnMsg t ∧
    runRule lib r ((v.FaMsg t).EnMsg t) =
      .ok { (v.FaMsg t).EnMsg t with
              attributeName := n,
              messages := v.messages ++ [stringsReplace1 tpl ":attr" n] } := by
  have hne : ¬ ifaceEq lan (.str Fa) = some true := fun h => hother ((ifaceEq_fa lan).mp h)
  have hfa : ifaceEq (.str "fa") (.str Fa) = some true := (ifaceEq_fa _).mpr rfl
  refine ⟨rfl, by simp [Validator.Lang, hne], rfl, by simp [Validator.Lang, hne, hfa],
    by simp [Validator.Lang, Validator.FaMsg, Validator.EnMsg, hne, hfa], ?_⟩
  rw [runRule_fail lib r _ hfail, messageMaker_template _ _ tpl htpl]
  have hloc : localizedName ((v.FaMsg t).EnMsg t) = n := by
    simp [localizedName, Validator.FaMsg, Validator.EnMsg, hattr]
  rw [hloc]
  rfl

theorem english_switch_keeps_attribute_table_witness :
    Value.str "en" ≠ .str "fa" ∧
    sampleTables.EnValidationMsg.lookup (ruleKey .Required) = some "The :attr field is required." ∧
    sampleTables.FaAttributes.lookup (Attribute "email").attributeName = some "eemeyl" ∧
    ruleStatus plainLib .Required (((Attribute "email").FaMsg sampleTables).EnMsg sampleTables) =
      some false ∧
    (((Attribute "email").Lang sampleTables (.str "fa")).Lang sampleTables (.str "en")).attributeTrans =
      sampleTables.FaAttributes ∧
    runRule plainLib .Required (((Attribute "email").FaMsg sampleTables).EnMsg sampleTables) =
      .ok { ((Attribute "email").FaMsg sampleTables).EnMsg sampleTables with
              attributeName := "eemeyl",
              messages := ["The eemeyl field is required."] } := by
  have h := english_switch_keeps_attribute_table plainLib sampleTables (Attribute "email")
    (.str "en") .Required "The :attr field is required." "eemeyl"
    (by simp) (by decide) (by decide) (by decide)
  exact ⟨by simp, by decide, by decide, by decide, h.2.2.2.1, h.2.2.2.2.2.trans rfl⟩

end Golidation
